import Mathlib

/-!
Shallow embedding of the product matching core of the finedeal browser
extension (TypeScript sources under src/services and src/utils).

Conventions of the embedding:
- JavaScript strings are modelled as lists of characters (abbreviation Str).
- JavaScript numbers are modelled as rational numbers; the floating point
  representation is abstracted to exact rational arithmetic.
- The ASCII fragment of toLowerCase and toUpperCase is modelled exactly;
  characters outside the ASCII letters are left unchanged.
- Logging calls have no observable effect and are dropped; the try and catch
  wrappers are dropped because no modelled operation throws.
-/

/-- JavaScript strings are modelled as lists of characters. -/
abbrev Str : Type := List Char

/-- Conversion from Lean string literals to the embedded string type. -/
def str (s : String) : Str := s.toList

/-- The apostrophe character, written by code to keep the source file free of
stray quote characters. -/
def apos : Char := Char.ofNat 39

/-- The space character. -/
def spaceChar : Char := Char.ofNat 32

/-- The vertical bar character, used by the deduplication key. -/
def barChar : Char := Char.ofNat 124

/-- ASCII lower casing of one character, the ASCII fragment of the JavaScript
toLowerCase operation. -/
def lowerChar (c : Char) : Char :=
  if h : 65 ≤ c.toNat ∧ c.toNat ≤ 90 then
    Char.ofNatAux (c.toNat + 32) (Or.inl (by omega))
  else c

/-- ASCII upper casing of one character, the ASCII fragment of the JavaScript
toUpperCase operation. -/
def upperChar (c : Char) : Char :=
  if h : 97 ≤ c.toNat ∧ c.toNat ≤ 122 then
    Char.ofNatAux (c.toNat - 32) (Or.inl (by omega))
  else c

/-- Lower casing of a whole string. -/
def lowerStr (s : Str) : Str := s.map lowerChar

/-- Whitespace test used for the JavaScript whitespace class: space, tab,
line feed, vertical tab, form feed and carriage return. -/
def wsChar (c : Char) : Bool :=
  c == spaceChar || c == Char.ofNat 9 || c == Char.ofNat 10 ||
  c == Char.ofNat 11 || c == Char.ofNat 12 || c == Char.ofNat 13

/-- Word character test for the regular expression word class: ASCII letters,
digits and underscore. -/
def wordChar (c : Char) : Bool :=
  c.isAlphanum || c == Char.ofNat 95

/-- Trim of leading and trailing whitespace, as performed by the JavaScript
trim operation (restricted to the modelled whitespace characters). -/
def strTrim (s : Str) : Str :=
  ((s.dropWhile wsChar).reverse.dropWhile wsChar).reverse

/-- Test whether the first argument is a prefix of the second. -/
def hasPfx : Str → Str → Bool
  | [], _ => true
  | _ :: _, [] => false
  | a :: as, b :: bs => a == b && hasPfx as bs

/-- Substring test: jsIncludes hay needle models hay.includes(needle). -/
def jsIncludes : Str → Str → Bool
  | [], needle => hasPfx needle []
  | c :: t, needle => hasPfx needle (c :: t) || jsIncludes t needle

/-- Helper for whitespace splitting carrying the current token. -/
def splitWsAux : Str → Str → List Str
  | cur, [] => if cur = [] then [] else [cur]
  | cur, c :: rest =>
    if wsChar c then
      if cur = [] then splitWsAux [] rest else cur :: splitWsAux [] rest
    else splitWsAux (cur ++ [c]) rest

/-- Split a string on whitespace runs, dropping empty pieces.  This agrees
with the JavaScript split on a whitespace regular expression up to the empty
leading piece, which every caller in the sources filters away afterwards. -/
def splitWs (s : Str) : List Str := splitWsAux [] s

/-- Helper for splitting out maximal runs of decimal digits. -/
def digitRunsAux : Str → Str → List Str
  | cur, [] => if cur = [] then [] else [cur]
  | cur, c :: rest =>
    if c.isDigit then digitRunsAux (cur ++ [c]) rest
    else if cur = [] then digitRunsAux [] rest else cur :: digitRunsAux [] rest

/-- All maximal runs of decimal digits of a string, in order; this models a
global match of a digit-run pattern, which yields the empty list where the
JavaScript match returns null. -/
def digitRuns (s : Str) : List Str := digitRunsAux [] s

/-- List of the distinct elements of a list, keeping first occurrences in
order; this is the iteration order of the keys of a JavaScript Map built by
insertion. -/
def firstOccs : List Str → List Str
  | [] => []
  | k :: rest => k :: firstOccs (rest.filter (fun x => !(x == k)))
  termination_by l => l.length
  decreasing_by
    simp only [List.length_cons]
    exact Nat.lt_succ_of_le (List.length_filter_le _ _)

/-- Numeric value of a decimal digit character. -/
def digitVal (c : Char) : ℕ := c.toNat - 48

/-- Hexadecimal digit test (both cases). -/
def isHexDigit (c : Char) : Bool :=
  c.isDigit || (97 ≤ (lowerChar c).toNat && (lowerChar c).toNat ≤ 102)

/-- Numeric value of a hexadecimal digit character. -/
def hexDigitVal (c : Char) : ℕ :=
  if c.isDigit then c.toNat - 48 else (lowerChar c).toNat - 87

/-- Value of a list of decimal digits. -/
def natOfDigits (l : Str) : ℕ := l.foldl (fun a c => a * 10 + digitVal c) 0

/-- Value of a list of hexadecimal digits. -/
def natOfHexDigits (l : Str) : ℕ := l.foldl (fun a c => a * 16 + hexDigitVal c) 0

/-- Helper parsing the part of a parseInt input after sign processing. -/
def parseIntCore (sign : ℤ) : Str → Option ℤ
  | c0 :: c1 :: rest =>
    if c0 = Char.ofNat 48 ∧ (c1 = Char.ofNat 120 ∨ c1 = Char.ofNat 88) then
      let hs := rest.takeWhile isHexDigit
      if hs = [] then none else some (sign * (natOfHexDigits hs : ℤ))
    else
      let ds := (c0 :: c1 :: rest).takeWhile Char.isDigit
      if ds = [] then none else some (sign * (natOfDigits ds : ℤ))
  | s =>
    let ds := s.takeWhile Char.isDigit
    if ds = [] then none else some (sign * (natOfDigits ds : ℤ))

/-- Model of the JavaScript parseInt applied with no radix argument: skip
leading whitespace, read an optional sign, detect a hexadecimal prefix, then
read the longest run of digits; none models the NaN result. -/
def parseIntM (s : Str) : Option ℤ :=
  let s1 := s.dropWhile wsChar
  match s1 with
  | c :: rest =>
    if c = Char.ofNat 45 then parseIntCore (-1) rest
    else if c = Char.ofNat 43 then parseIntCore 1 rest
    else parseIntCore 1 s1
  | [] => none

/-- Model of Math.round: round half toward positive infinity. -/
def jsRound (q : ℚ) : ℤ := ⌊q + 1 / 2⌋

/-- Join a list of strings with a separator string between the pieces. -/
def joinSep (sep : Str) (l : List Str) : Str := List.intercalate sep l

/-!
A small regular expression engine with exactly the features used by the
extraction patterns in src/utils/product.ts: character classes, sequencing,
alternation tried left to right, greedy option, greedy star over a character
class, greedy bounded repetition over a character class, and word boundaries.
Matching is backtracking with greedy preference, the semantics of the
JavaScript engine on these patterns.
-/

/-- Syntax of the regular expression fragment. -/
inductive RE where
  | eps : RE
  | cls (p : Char → Bool) : RE
  | seq (a b : RE) : RE
  | alt (a b : RE) : RE
  | opt (a : RE) : RE
  | many (p : Char → Bool) : RE
  | rep (p : Char → Bool) (lo extra : Nat) : RE
  | wb : RE

/-- Word boundary test between the previous character and the rest of the
input. -/
def atBoundary (prev : Option Char) (s : Str) : Bool :=
  let l := match prev with | some c => wordChar c | none => false
  let r := match s with | c :: _ => wordChar c | [] => false
  l != r

/-- Greedy star over a character class, in continuation passing style: longer
consumptions are tried before shorter ones. -/
def mmany (p : Char → Bool) (prev : Option Char) (s : Str)
    (k : Option Char → Str → Option Str) : Option Str :=
  match s with
  | [] => k prev []
  | c :: rest =>
    if p c then (mmany p (some c) rest k).orElse (fun _ => k prev (c :: rest))
    else k prev (c :: rest)

/-- Greedy bounded repetition over a character class: first lo mandatory
characters, then greedily up to extra further ones. -/
def mrep (p : Char → Bool) (lo extra : Nat) (prev : Option Char) (s : Str)
    (k : Option Char → Str → Option Str) : Option Str :=
  match lo, extra, s with
  | 0, 0, s => k prev s
  | 0, _ + 1, [] => k prev []
  | 0, e + 1, c :: rest =>
    if p c then (mrep p 0 e (some c) rest k).orElse (fun _ => k prev (c :: rest))
    else k prev (c :: rest)
  | _ + 1, _, [] => none
  | l + 1, e, c :: rest =>
    if p c then mrep p l e (some c) rest k else none

/-- Backtracking matcher in continuation passing style.  The continuation
receives the character preceding the remaining input (for word boundaries)
and the remaining input; the overall result is the remaining input after the
first successful complete match in backtracking order. -/
def mrun : RE → Option Char → Str → (Option Char → Str → Option Str) → Option Str
  | .eps, prev, s, k => k prev s
  | .cls p, _, s, k =>
    match s with
    | [] => none
    | c :: rest => if p c then k (some c) rest else none
  | .seq a b, prev, s, k => mrun a prev s (fun p2 s2 => mrun b p2 s2 k)
  | .alt a b, prev, s, k =>
    (mrun a prev s k).orElse (fun _ => mrun b prev s k)
  | .opt a, prev, s, k => (mrun a prev s k).orElse (fun _ => k prev s)
  | .many p, prev, s, k => mmany p prev s k
  | .rep p lo extra, prev, s, k => mrep p lo extra prev s k
  | .wb, prev, s, k => if atBoundary prev s then k prev s else none

/-- Try to match at the current position; on success return the remaining
suffix after the match. -/
def matchHere (re : RE) (prev : Option Char) (s : Str) : Option Str :=
  mrun re prev s (fun _ s2 => some s2)

/-- Leftmost search: try every start position from left to right and return
the matched substring of the first position that matches. -/
def searchFrom (re : RE) (prev : Option Char) (s : Str) : Option Str :=
  match matchHere re prev s with
  | some rest => some (s.take (s.length - rest.length))
  | none =>
    match s with
    | [] => none
    | c :: tail => searchFrom re (some c) tail

/-- First match of a pattern in a string, the model of a non global match
call returning the whole matched substring. -/
def regexFind (re : RE) (s : Str) : Option Str := searchFrom re none s

/-- Case insensitive single character pattern. -/
def chCI (c : Char) : RE := RE.cls (fun x => lowerChar x == lowerChar c)

/-- Case insensitive literal word pattern. -/
def litCI (w : String) : RE := (str w).foldr (fun c acc => RE.seq (chCI c) acc) RE.eps

/-- Sequencing of a list of patterns. -/
def reSeq (l : List RE) : RE := l.foldr RE.seq RE.eps

/-- Alternation of a nonempty list of patterns, tried left to right. -/
def reAlt : List RE → RE
  | [] => RE.eps
  | [r] => r
  | r :: rest => RE.alt r (reAlt rest)

/-- Whitespace class character test used by the patterns. -/
def sp0 : RE := RE.many wsChar

/-- One or more whitespace characters. -/
def sp1 : RE := RE.seq (RE.cls wsChar) sp0

/-- One or more decimal digits, greedy. -/
def digits1 : RE := RE.seq (RE.cls Char.isDigit) (RE.many Char.isDigit)

/-- ASCII letter test; with the case insensitive flag the letter class of the
patterns matches both cases. -/
def alphaCI (c : Char) : Bool :=
  (97 ≤ (lowerChar c).toNat) && ((lowerChar c).toNat ≤ 122)

/-- Zero or more ASCII letters, greedy. -/
def alphas0 : RE := RE.many alphaCI

/-- One or more word characters, greedy. -/
def word1 : RE := RE.seq (RE.cls wordChar) (RE.many wordChar)

/-!
Attribute extraction from src/utils/product.ts.
-/

/-- Pattern for iPhone models. -/
def patIphone : RE :=
  reSeq [litCI "iphone", sp0, digits1, alphas0,
    RE.opt (RE.seq sp1 (litCI "pro")), RE.opt (RE.seq sp1 (litCI "max")),
    RE.opt (RE.seq sp1 (litCI "plus")), RE.opt (RE.seq sp1 (litCI "mini"))]

/-- Pattern for Samsung Galaxy models. -/
def patGalaxy : RE :=
  reSeq [litCI "galaxy", sp1, RE.cls alphaCI, digits1, sp0,
    RE.opt (reAlt [litCI "pro", litCI "plus", litCI "ultra"])]

/-- Pattern for OnePlus models. -/
def patOneplus : RE :=
  reSeq [litCI "oneplus", sp1, digits1, alphas0,
    RE.opt (RE.seq sp1 (litCI "pro")), RE.opt (RE.seq sp1 (litCI "r")),
    RE.opt (RE.seq sp1 (litCI "t"))]

/-- Pattern for Google Pixel models. -/
def patPixel : RE :=
  reSeq [litCI "pixel", sp1, digits1, alphas0,
    RE.opt (RE.seq sp1 (litCI "pro")), RE.opt (RE.seq sp1 (litCI "xl"))]

/-- Pattern for Redmi and Mi models. -/
def patRedmi : RE :=
  reSeq [reAlt [litCI "redmi", litCI "mi"], sp1, digits1, alphas0,
    RE.opt (RE.seq sp1 (litCI "pro"))]

/-- Pattern for Acer laptop models. -/
def patAcer : RE :=
  reAlt [
    reSeq [litCI "nitro", sp1, RE.opt (RE.seq (litCI "v") sp1), digits1],
    reSeq [litCI "aspire", sp1, digits1],
    reSeq [litCI "predator", sp1, word1, sp1, digits1],
    reSeq [litCI "swift", sp1, digits1]]

/-- Pattern for Asus laptop models. -/
def patAsus : RE :=
  reAlt [
    reSeq [litCI "tuf", sp1, RE.cls alphaCI, digits1],
    reSeq [litCI "rog", sp1, word1, sp1, RE.opt (RE.cls alphaCI), digits1],
    reSeq [litCI "vivobook", sp1, digits1],
    reSeq [litCI "zenbook", sp1, digits1]]

/-- Pattern for HP laptop models. -/
def patHp : RE :=
  reAlt [
    reSeq [litCI "pavilion", sp1, digits1],
    reSeq [litCI "omen", sp1, digits1],
    reSeq [litCI "victus", sp1, digits1],
    reSeq [litCI "envy", sp1, digits1]]

/-- Pattern for Dell laptop models. -/
def patDell : RE :=
  reAlt [
    reSeq [litCI "xps", sp1, digits1],
    reSeq [litCI "g", digits1],
    reSeq [litCI "inspiron", sp1, digits1],
    reSeq [litCI "vostro", sp1, digits1],
    reSeq [litCI "latitude", sp1, digits1]]

/-- Pattern for Lenovo laptop models. -/
def patLenovo : RE :=
  reAlt [
    reSeq [litCI "loq", sp1, digits1],
    reSeq [litCI "ideapad", sp1, RE.opt (RE.seq (litCI "gaming") sp1), digits1],
    reSeq [litCI "thinkpad", sp1, RE.cls alphaCI, digits1],
    reSeq [litCI "legion", sp1, digits1]]

/-- Pattern for MSI laptop models. -/
def patMsi : RE :=
  reAlt [
    reSeq [litCI "gf", digits1],
    reSeq [litCI "katana", sp1, digits1],
    reSeq [litCI "bravo", sp1, digits1],
    reSeq [litCI "pulse", sp1, digits1]]

/-- Generic fallback pattern: one to three letters, two to four digits, an
optional trailing letter, delimited by word boundaries. -/
def patGeneric : RE :=
  reSeq [RE.wb, RE.rep alphaCI 1 2, RE.rep Char.isDigit 2 2,
    RE.opt (RE.cls alphaCI), RE.wb]

/-- The ordered pattern list of extractModel; in every source pattern the
first capture group spans the whole match, so the model string is the whole
matched substring. -/
def modelPatterns : List RE :=
  [patIphone, patGalaxy, patOneplus, patPixel, patRedmi,
   patAcer, patAsus, patHp, patDell, patLenovo, patMsi, patGeneric]

/-- Helper running the model patterns in order and returning the first
match. -/
def findFirstModel : List RE → Str → Str
  | [], _ => []
  | p :: rest, title =>
    match regexFind p title with
    | some m => strTrim m
    | none => findFirstModel rest title

/-- Model of extractModel from src/utils/product.ts: the first matching
pattern wins, and the matched substring is trimmed. -/
def extractModel (title : Str) : Str := findFirstModel modelPatterns title

/-- Attempt to recognise the storage pattern at the current position: a word
boundary, digits, optional whitespace, a gb or tb unit, a word boundary. -/
def tryStorageAt (prev : Option Char) (s : Str) : Option Str :=
  if atBoundary prev s then
    let ds := s.takeWhile Char.isDigit
    if ds = [] then none
    else
      let s2 := (s.drop ds.length).dropWhile wsChar
      match s2 with
      | c1 :: c2 :: rest =>
        if (lowerChar c1 = Char.ofNat 103 ∨ lowerChar c1 = Char.ofNat 116) ∧
            lowerChar c2 = Char.ofNat 98 ∧ atBoundary (some c2) rest then
          some (ds ++ [upperChar c1, upperChar c2])
        else none
      | _ => none
  else none

/-- Scan of the storage pattern over the whole input, left to right. -/
def scanStorage (prev : Option Char) (s : Str) : Str :=
  match tryStorageAt prev s with
  | some r => r
  | none =>
    match s with
    | [] => []
    | c :: rest => scanStorage (some c) rest
  termination_by s.length
  decreasing_by simp

/-- Model of extractStorage from src/utils/product.ts: first occurrence of
digits followed by a gb or tb unit, with the unit upper cased.  The digits
of the first match are maximal because a shorter digit run would be followed
by another digit, which matches neither whitespace nor the unit letter. -/
def extractStorage (title : Str) : Str := scanStorage none title

/-- Attempt to recognise the RAM pattern at the current position: a word
boundary, digits, optional whitespace, gb, mandatory whitespace, ram, a word
boundary. -/
def tryRamAt (prev : Option Char) (s : Str) : Option Str :=
  if atBoundary prev s then
    let ds := s.takeWhile Char.isDigit
    if ds = [] then none
    else
      let s2 := (s.drop ds.length).dropWhile wsChar
      match s2 with
      | c1 :: c2 :: c3 :: rest =>
        if lowerChar c1 = Char.ofNat 103 ∧ lowerChar c2 = Char.ofNat 98 ∧
            wsChar c3 then
          let s3 := rest.dropWhile wsChar
          match s3 with
          | r1 :: r2 :: r3 :: rest2 =>
            if lowerChar r1 = Char.ofNat 114 ∧ lowerChar r2 = Char.ofNat 97 ∧
                lowerChar r3 = Char.ofNat 109 ∧ atBoundary (some r3) rest2 then
              some (ds ++ str "GB")
            else none
          | _ => none
        else none
      | _ => none
  else none

/-- Scan of the RAM pattern over the whole input, left to right. -/
def scanRam (prev : Option Char) (s : Str) : Str :=
  match tryRamAt prev s with
  | some r => r
  | none =>
    match s with
    | [] => []
    | c :: rest => scanRam (some c) rest
  termination_by s.length
  decreasing_by simp

/-- Model of extractRAM from src/utils/product.ts. -/
def extractRAM (title : Str) : Str := scanRam none title

/-- Colour vocabulary of extractColor, in source order. -/
def extractColorList : List Str :=
  [str "black", str "white", str "blue", str "red", str "green",
   str "yellow", str "pink", str "purple", str "gray", str "grey",
   str "silver", str "gold", str "rose", str "titanium", str "midnight",
   str "starlight", str "navy", str "maroon", str "beige", str "brown",
   str "orange"]

/-- Capitalise the first character of a string. -/
def capFirst : Str → Str
  | [] => []
  | c :: rest => upperChar c :: rest

/-- Model of extractColor from src/utils/product.ts: substring search over a
fixed colour vocabulary, returning the first hit with its first letter upper
cased. -/
def extractColor (title : Str) : Str :=
  let titleLower := lowerStr title
  match extractColorList.find? (fun c => jsIncludes titleLower c) with
  | some c => capFirst c
  | none => []

/-!
Brand canonicalisation from src/utils/brand-normalization.ts.
-/

/-- Alias strings containing an apostrophe, built explicitly. -/
def levisAlias : Str := str "levi" ++ [apos] ++ str "s"

/-- Canonical name of the LOreal brand with its apostrophe. -/
def lorealCanon : Str := str "L" ++ [apos] ++ str "Oreal"

/-- Alias of the LOreal brand with its apostrophe. -/
def lorealAlias : Str := str "l" ++ [apos] ++ str "oreal"

/-- The brand alias table BRAND_ALIASES, in source order: canonical name
paired with its list of aliases. -/
def BRAND_ALIASES : List (Str × List Str) :=
  [(str "Apple", [str "iphone", str "ipad", str "macbook", str "airpods", str "apple"]),
   (str "Samsung", [str "samsung", str "galaxy"]),
   (str "Xiaomi", [str "xiaomi", str "mi", str "redmi", str "poco"]),
   (str "OnePlus", [str "oneplus", str "one plus"]),
   (str "Realme", [str "realme", str "real me"]),
   (str "Oppo", [str "oppo"]),
   (str "Vivo", [str "vivo"]),
   (str "Google", [str "google", str "pixel"]),
   (str "HP", [str "hp", str "hewlett-packard", str "hewlett packard"]),
   (str "Dell", [str "dell"]),
   (str "Lenovo", [str "lenovo"]),
   (str "Asus", [str "asus"]),
   (str "Acer", [str "acer"]),
   (str "MSI", [str "msi"]),
   (str "Sony", [str "sony"]),
   (str "LG", [str "lg"]),
   (str "Philips", [str "philips"]),
   (str "Panasonic", [str "panasonic"]),
   (str "Whirlpool", [str "whirlpool"]),
   (str "Bosch", [str "bosch"]),
   (str "IFB", [str "ifb"]),
   (str "Canon", [str "canon"]),
   (str "Nikon", [str "nikon"]),
   (str "Nike", [str "nike"]),
   (str "Adidas", [str "adidas"]),
   (str "Puma", [str "puma"]),
   (str "Reebok", [str "reebok"]),
   (str "Levis", [str "levi", str "levis", levisAlias]),
   (str "Zara", [str "zara"]),
   (str "H&M", [str "h&m", str "hm", str "h and m"]),
   (str "Mango", [str "mango"]),
   (str "UCB", [str "ucb", str "united colors of benetton", str "benetton"]),
   (str "Allen Solly", [str "allen solly", str "allensolly"]),
   (str "Van Heusen", [str "van heusen", str "vanheusen"]),
   (str "Lakme", [str "lakme", str "lakmé"]),
   (str "Maybelline", [str "maybelline"]),
   (lorealCanon, [str "loreal", lorealAlias, str "l oreal"]),
   (str "MAC", [str "mac"]),
   (str "Revlon", [str "revlon"]),
   (str "Nykaa", [str "nykaa"]),
   (str "Mamaearth", [str "mamaearth", str "mama earth"]),
   (str "Boat", [str "boat", str "boAt"]),
   (str "JBL", [str "jbl"]),
   (str "Bose", [str "bose"]),
   (str "Sennheiser", [str "sennheiser"]),
   (str "Fastrack", [str "fastrack", str "fast track"]),
   (str "Titan", [str "titan"]),
   (str "Casio", [str "casio"]),
   (str "Fossil", [str "fossil"]),
   (str "Timex", [str "timex"])]

/-- First table entry whose canonical name matches the normalised input in
lower case, if any. -/
def findCanon (n : Str) : Option Str :=
  (BRAND_ALIASES.find? (fun e => lowerStr e.1 == n)).map (fun e => e.1)

/-- First table entry one of whose aliases matches the normalised input in
lower case, if any. -/
def findAlias (n : Str) : Option Str :=
  (BRAND_ALIASES.find? (fun e => e.2.any (fun a => lowerStr a == n))).map
    (fun e => e.1)

/-- Capitalisation fallback of normalizeBrand: first character upper cased,
the rest lower cased. -/
def capLower : Str → Str
  | [] => []
  | c :: rest => upperChar c :: lowerStr rest

/-- Model of normalizeBrand from src/utils/brand-normalization.ts. -/
def normalizeBrand (brand : Str) : Str :=
  if brand = [] then []
  else
    let normalized := strTrim (lowerStr brand)
    match findCanon normalized with
    | some c => c
    | none =>
      match findAlias normalized with
      | some c => c
      | none => capLower brand

/-- Model of brandsMatch from src/utils/brand-normalization.ts. -/
def brandsMatch (brand1 brand2 : Str) : Bool :=
  if brand1 = [] ∨ brand2 = [] then false
  else lowerStr (normalizeBrand brand1) == lowerStr (normalizeBrand brand2)

/-!
Data model from src/types/index.ts.  Optional fields that the matching core
never reads (attributes, productNumber, sku, availability) are omitted.
-/

/-- A product listing; numericPrice is a JavaScript number, modelled as a
rational. -/
structure Product where
  site : Str
  title : Str
  price : Str
  numericPrice : ℚ
  url : Str
  image : Str
  productId : Str
  brand : Str
  category : Str
deriving DecidableEq

/-- The match level enumeration. -/
inductive MatchLevel where
  | EXACT_ID : MatchLevel
  | EXACT : MatchLevel
  | HIGH : MatchLevel
  | MEDIUM : MatchLevel
  | LOW : MatchLevel
  | SIMILAR : MatchLevel
deriving DecidableEq

/-- A match result: the candidate product together with the annotation
fields added by a matcher.  The source interface spreads the product fields
into the result; the embedding keeps them in a product component. -/
structure MatchResult where
  product : Product
  confidence : ℤ
  matchLevel : MatchLevel
  matchBadge : Str
  matchReason : Str
  similarity : Option ℚ
deriving DecidableEq

/-!
The multi factor scorer from src/services/smart-matcher.ts.
-/

/-- Per pair scoring breakdown of the smart matcher. -/
structure ScoringBreakdown where
  brandScore : ℚ
  modelScore : ℚ
  specsScore : ℚ
  titleScore : ℚ
  categoryScore : ℚ
  priceScore : ℚ
  total : ℚ
deriving DecidableEq

/-- A smart matcher result: a match result that also carries its scoring
breakdown, as pushed by findMatches for debugging. -/
structure SmartResult where
  product : Product
  confidence : ℤ
  matchLevel : MatchLevel
  matchBadge : Str
  matchReason : Str
  scoring : ScoringBreakdown
deriving DecidableEq

/-- Stop word set of the smart matcher tokenizer. -/
def stopWordsSmart : List Str :=
  [str "the", str "a", str "an", str "and", str "or", str "but", str "in",
   str "on", str "at", str "to", str "for", str "of", str "with", str "by"]

/-- Model of the smart matcher tokenize: lower case, replace every character
that is neither a word character nor whitespace by a space, split on
whitespace, keep tokens of length above one that are not stop words. -/
def tokenizeSmart (text : Str) : List Str :=
  let cleaned := (lowerStr text).map (fun c =>
    if wordChar c || wsChar c then c else spaceChar)
  (splitWs cleaned).filter (fun t => 1 < t.length && !(stopWordsSmart.contains t))

/-- Model of generateNGrams: every window of n consecutive tokens joined by
a single space; empty when there are fewer than n tokens. -/
def generateNGrams (tokens : List Str) (n : ℕ) : List Str :=
  (List.range (tokens.length + 1 - n)).map
    (fun i => joinSep [spaceChar] ((tokens.drop i).take n))

/-- Derived features of a product, computed by extractFeatures.  The source
also computes keyword lists and a lower cased copy of the title, which no
caller of the scoring path ever reads; they are omitted. -/
structure Features where
  brand : Str
  model : Str
  storage : Str
  ram : Str
  color : Str
  tokens : List Str
  bigrams : List Str
  trigrams : List Str
  numbers : List ℕ
deriving DecidableEq

/-- Model of extractFeatures from src/services/smart-matcher.ts. -/
def extractFeatures (product : Product) : Features :=
  let tokens := tokenizeSmart product.title
  { brand := normalizeBrand product.brand
    model := extractModel product.title
    storage := extractStorage product.title
    ram := extractRAM product.title
    color := extractColor product.title
    tokens := tokens
    bigrams := generateNGrams tokens 2
    trigrams := generateNGrams tokens 3
    numbers := (digitRuns (lowerStr product.title)).map natOfDigits }

/-- Weight of the brand dimension. -/
def WEIGHT_BRAND : ℚ := 25

/-- Weight of the model dimension. -/
def WEIGHT_MODEL : ℚ := 30

/-- Weight of the specs dimension. -/
def WEIGHT_SPECS : ℚ := 20

/-- Weight of the title dimension. -/
def WEIGHT_TITLE : ℚ := 15

/-- Weight of the category dimension. -/
def WEIGHT_CATEGORY : ℚ := 10

/-- Model of scoreBrand: 25 points for a canonical match, 17.5 for substring
containment, 12.5 for a shared word of length above two, otherwise zero. -/
def scoreBrand (brand1 brand2 : Str) : ℚ :=
  if brand1 = [] ∨ brand2 = [] then 0
  else if brandsMatch brand1 brand2 then WEIGHT_BRAND
  else if jsIncludes brand1 brand2 || jsIncludes brand2 brand1 then
    WEIGHT_BRAND * 0.7
  else
    let words1 := splitWs brand1
    let words2 := splitWs brand2
    let commonWords := words1.filter (fun w => words2.contains w && 2 < w.length)
    if commonWords.length > 0 then WEIGHT_BRAND * 0.5 else 0

/-- Model of calculateTokenOverlap: Jaccard similarity of the token sets,
zero when either token list is empty. -/
def calculateTokenOverlap (tokens1 tokens2 : List Str) : ℚ :=
  if tokens1.length = 0 ∨ tokens2.length = 0 then 0
  else
    let set1 := tokens1.toFinset
    let set2 := tokens2.toFinset
    (((set1 ∩ set2).card : ℚ)) / (((set1 ∪ set2).card : ℚ))

/-- Two dimensional Levenshtein table row update.  The arguments carry the
remainder of the first string, the remainder of the previous row aligned so
that its head is the diagonal neighbour, and the freshly computed cell to
the left. -/
def levRowAux (c2 : Char) : Str → List ℕ → ℕ → List ℕ
  | [], _, _ => []
  | c1 :: rest1, prow, left =>
    match prow with
    | [] => []
    | diag :: ptail =>
      let up := ptail.headD 0
      let cell :=
        if c2 = c1 then diag
        else Nat.min (diag + 1) (Nat.min (left + 1) (up + 1))
      cell :: levRowAux c2 rest1 ptail cell

/-- One full row of the Levenshtein table: the cell in column zero is the row
index, the remaining cells are computed from the previous row. -/
def levRow (c2 : Char) (str1 : Str) (prow : List ℕ) (i : ℕ) : List ℕ :=
  i :: levRowAux c2 str1 prow i

/-- Model of levenshteinDistance from src/services/smart-matcher.ts: the
standard dynamic programming table with rows indexed by the second string
and columns by the first, read at the bottom right corner. -/
def levenshteinDistance (str1 str2 : Str) : ℕ :=
  let row0 := List.range (str1.length + 1)
  let final := str2.foldl
    (fun acc c2 => (levRow c2 str1 acc.1 (acc.2 + 1), acc.2 + 1))
    (row0, 0)
  (final.1).getLastD 0

/-- Model of stringSimilarity: one for identical strings, zero when exactly
one side is empty, otherwise the edit distance complement relative to the
longer length.  The dead zero length branch of the source is kept. -/
def stringSimilarity (str1 str2 : Str) : ℚ :=
  if str1 = str2 then 1
  else if str1.length = 0 ∨ str2.length = 0 then 0
  else
    let longer := if str2.length < str1.length then str1 else str2
    if longer.length = 0 then 1
    else
      ((longer.length : ℚ) - (levenshteinDistance str1 str2 : ℚ)) /
        (longer.length : ℚ)

/-- Character test for the model cleaning class: lower case letters and
digits only (the model strings are lower cased before cleaning). -/
def alnumLower (c : Char) : Bool :=
  (97 ≤ c.toNat && c.toNat ≤ 122) || c.isDigit

/-- Model of scoreModel: token overlap fallback when either model string is
empty, thirty points for cleaned equality, twenty four for containment, a
similarity share above the 0.6 threshold, otherwise zero. -/
def scoreModel (model1 model2 : Str) (tokens1 tokens2 : List Str) : ℚ :=
  if model1 = [] ∨ model2 = [] then
    calculateTokenOverlap tokens1 tokens2 * WEIGHT_MODEL
  else
    let clean1 := (lowerStr model1).filter alnumLower
    let clean2 := (lowerStr model2).filter alnumLower
    if clean1 = clean2 then WEIGHT_MODEL
    else if jsIncludes clean1 clean2 || jsIncludes clean2 clean1 then
      WEIGHT_MODEL * 0.8
    else
      let similarity := stringSimilarity clean1 clean2
      if 0.6 < similarity then WEIGHT_MODEL * similarity else 0

/-- Storage contribution of scoreSpecs. -/
def storagePart (source candidate : Features) : ℚ :=
  if source.storage ≠ [] ∧ candidate.storage ≠ [] then
    if source.storage = candidate.storage then 8
    else
      match parseIntM source.storage, parseIntM candidate.storage with
      | some n1, some n2 => if |n1 - n2| ≤ 128 then 4 else 0
      | _, _ => 0
  else 0

/-- RAM contribution of scoreSpecs. -/
def ramPart (source candidate : Features) : ℚ :=
  if source.ram ≠ [] ∧ candidate.ram ≠ [] then
    if source.ram = candidate.ram then 8
    else
      match parseIntM source.ram, parseIntM candidate.ram with
      | some n1, some n2 => if |n1 - n2| ≤ 4 then 4 else 0
      | _, _ => 0
  else 0

/-- Colour contribution of scoreSpecs. -/
def colorPart (source candidate : Features) : ℚ :=
  if source.color ≠ [] ∧ candidate.color ≠ [] then
    if lowerStr source.color = lowerStr candidate.color then 4 else 0
  else 0

/-- Model of scoreSpecs: the storage, RAM and colour contributions are
independent and accumulate into one score.  A NaN comparison in the source,
arising when parseInt fails, is false, so no partial credit is given. -/
def scoreSpecs (source candidate : Features) : ℚ :=
  storagePart source candidate + ramPart source candidate +
    colorPart source candidate

/-- Model of scoreTitleSimilarity: weighted combination of token overlap and
bigram overlap. -/
def scoreTitleSimilarity (tokens1 tokens2 bigrams1 bigrams2 : List Str) : ℚ :=
  let tokenOverlap := calculateTokenOverlap tokens1 tokens2
  let bigramOverlap := calculateTokenOverlap bigrams1 bigrams2
  (tokenOverlap * 0.4 + bigramOverlap * 0.6) * WEIGHT_TITLE

/-- Model of scoreCategory: neutral five when either category is empty, ten
for equality, seven for containment, zero otherwise. -/
def scoreCategory (cat1 cat2 : Str) : ℚ :=
  if cat1 = [] ∨ cat2 = [] then 5
  else if cat1 = cat2 then WEIGHT_CATEGORY
  else if jsIncludes cat1 cat2 || jsIncludes cat2 cat1 then
    WEIGHT_CATEGORY * 0.7
  else 0

/-- Model of scorePriceProximity: five points within twenty percent, three
within fifty percent, minus two above a factor of two, otherwise zero. -/
def scorePriceProximity (price1 price2 : ℚ) : ℚ :=
  if price1 = 0 ∨ price2 = 0 then 0
  else
    let ratio := max price1 price2 / min price1 price2
    if ratio ≤ 1.2 then 5
    else if ratio ≤ 1.5 then 3
    else if 2 < ratio then -2
    else 0

/-- Model of calculateScore: the six sub scores and the capped total. -/
def calculateScore (source candidate : Features)
    (sourceProduct candidateProduct : Product) : ScoringBreakdown :=
  let brandScore := scoreBrand source.brand candidate.brand
  let modelScore := scoreModel source.model candidate.model source.tokens candidate.tokens
  let specsScore := scoreSpecs source candidate
  let titleScore := scoreTitleSimilarity source.tokens candidate.tokens
    source.bigrams candidate.bigrams
  let categoryScore := scoreCategory sourceProduct.category candidateProduct.category
  let priceScore := scorePriceProximity sourceProduct.numericPrice
    candidateProduct.numericPrice
  { brandScore := brandScore
    modelScore := modelScore
    specsScore := specsScore
    titleScore := titleScore
    categoryScore := categoryScore
    priceScore := priceScore
    total := min 100 (brandScore + modelScore + specsScore + titleScore +
      categoryScore + priceScore) }

/-- Category keyword table CATEGORY_KEYWORDS, in source order. -/
def CATEGORY_KEYWORDS : List (Str × List Str) :=
  [(str "laptop", [str "laptop", str "notebook", str "ultrabook",
     str "chromebook", str "macbook"]),
   (str "phone", [str "phone", str "smartphone", str "mobile", str "iphone",
     str "galaxy phone"]),
   (str "tablet", [str "tablet", str "ipad", str "tab s", str "surface go"]),
   (str "gpu", [str "graphics card", str "gpu", str "geforce", str "radeon",
     str "rtx", str "gtx"]),
   (str "accessory", [str "case", str "cover", str "charger", str "cable",
     str "adapter", str "protector", str "tempered glass"])]

/-- Scan of the category keyword table against a lower cased title: the
first category one of whose keywords occurs in the title wins. -/
def scanCategories : List (Str × List Str) → Str → Str
  | [], _ => str "unknown"
  | (name, kws) :: rest, titleLower =>
    if kws.any (fun k => jsIncludes titleLower k) then name
    else scanCategories rest titleLower

/-- Model of detectCategory from src/services/smart-matcher.ts: the explicit
category field is consulted first, then the title keywords, with unknown as
the default. -/
def detectCategory (product : Product) : Str :=
  let titleLower := lowerStr product.title
  let fromField : Option Str :=
    if product.category = [] then none
    else if jsIncludes product.category (str "laptop") then some (str "laptop")
    else if jsIncludes product.category (str "phone") then some (str "phone")
    else if jsIncludes product.category (str "tablet") then some (str "tablet")
    else if jsIncludes product.category (str "gpu") then some (str "gpu")
    else none
  match fromField with
  | some c => c
  | none => scanCategories CATEGORY_KEYWORDS titleLower

/-- Model of filterByCategory from src/services/smart-matcher.ts. -/
def filterByCategory (sourceCategory : Str) (candidates : List Product) :
    List Product :=
  if sourceCategory = str "accessory" then
    candidates.filter (fun c => detectCategory c == str "accessory")
  else
    candidates.filter (fun c =>
      let candidateCategory := detectCategory c
      if candidateCategory = str "accessory" then false
      else if sourceCategory = str "unknown" then true
      else if candidateCategory = str "unknown" then true
      else sourceCategory == candidateCategory)

/-- Model of preprocessCandidates: drop records with a missing or short
title or a price below ten. -/
def preprocessCandidates (candidates : List Product) : List Product :=
  candidates.filter (fun p =>
    !(p.title = [] || p.title.length < 5) && !(decide (p.numericPrice < 10)))

/-- The minimum confidence threshold of the smart matcher. -/
def MIN_CONFIDENCE_SMART : ℚ := 70

/-- The result cap of the smart matcher. -/
def MAX_RESULTS_SMART : ℕ := 8

/-- Model of getMatchLevel. -/
def getMatchLevel (score : ℚ) : MatchLevel :=
  if 90 ≤ score then MatchLevel.EXACT
  else if 80 ≤ score then MatchLevel.HIGH
  else if 70 ≤ score then MatchLevel.MEDIUM
  else MatchLevel.LOW

/-- Model of getMatchBadge. -/
def getMatchBadge (score : ℚ) : Str :=
  if 90 ≤ score then str "🎯 EXACT"
  else if 80 ≤ score then str "⭐ HIGH"
  else if 70 ≤ score then str "✓ MEDIUM"
  else str "~ LOW"

/-- Model of buildMatchReason: informative sub scores are rendered into a
joined explanation, defaulting to Matched. -/
def buildMatchReason (scoring : ScoringBreakdown) (features : Features) : Str :=
  let reasons : List Str :=
    (if 20 ≤ scoring.brandScore then [str "Brand: " ++ features.brand] else []) ++
    (if 20 ≤ scoring.modelScore then
      [str "Model: " ++ (if features.model ≠ [] then features.model else str "matched")]
     else []) ++
    (if 10 ≤ scoring.specsScore then
      (let specs := (if features.storage ≠ [] then [features.storage] else []) ++
        (if features.ram ≠ [] then [features.ram] else [])
       if specs.length > 0 then [str "Specs: " ++ joinSep (str ", ") specs] else [])
     else []) ++
    (if 10 ≤ scoring.titleScore then [str "Similar title"] else [])
  if reasons = [] then str "Matched" else joinSep (str " • ") reasons

/-- Descending stable ordering on smart results by confidence, the
comparator of the source sort. -/
def smartLe (a b : SmartResult) : Prop := b.confidence ≤ a.confidence

instance : DecidableRel smartLe := fun a b => Int.decLe b.confidence a.confidence

instance : IsTotal SmartResult smartLe :=
  ⟨fun a b => le_total b.confidence a.confidence⟩

instance : IsTrans SmartResult smartLe :=
  ⟨fun _ _ _ h1 h2 => le_trans h2 h1⟩

/-- Model of the smart matcher findMatches from src/services/smart-matcher.ts:
validate, detect the source category, filter by category, score every
survivor, keep totals at or above the threshold, sort by descending
confidence (the source sort is stable, so insertion sort computes it) and
keep the first eight. -/
def smartFindMatches (sourceProduct : Product) (candidates : List Product) :
    List SmartResult :=
  let validCandidates := preprocessCandidates candidates
  let sourceCategory := detectCategory sourceProduct
  let categoryFiltered := filterByCategory sourceCategory validCandidates
  if categoryFiltered.length = 0 then []
  else
    let sourceFeatures := extractFeatures sourceProduct
    let scoredMatches := categoryFiltered.filterMap (fun candidate =>
      let candidateFeatures := extractFeatures candidate
      let scoring := calculateScore sourceFeatures candidateFeatures
        sourceProduct candidate
      if MIN_CONFIDENCE_SMART ≤ scoring.total then
        some ({ product := candidate
                confidence := jsRound scoring.total
                matchLevel := getMatchLevel scoring.total
                matchBadge := getMatchBadge scoring.total
                matchReason := buildMatchReason scoring candidateFeatures
                scoring := scoring } : SmartResult)
      else none)
    (scoredMatches.insertionSort smartLe).take MAX_RESULTS_SMART

/-!
The legacy level matcher from src/services/matcher.ts.
-/

/-- Accessory keyword list of the legacy matcher. -/
def ACCESSORY_KEYWORDS : List Str :=
  [str "case", str "cover", str "charger", str "cable", str "adapter",
   str "holder", str "stand", str "protector", str "screen guard",
   str "tempered glass", str "skin", str "pouch", str "sleeve", str "bag",
   str "strap", str "band", str "compatible", str "accessory"]

/-- The minimum confidence of the legacy matcher. -/
def MIN_CONFIDENCE_LEGACY : ℤ := 25

/-- Model of isAccessory: keyword search in the lower cased title. -/
def isAccessory (title : Str) : Bool :=
  ACCESSORY_KEYWORDS.any (fun k => jsIncludes (lowerStr title) k)

/-- Device words whose presence exempts a title from accessory filtering. -/
def deviceWords : List Str :=
  [str "phone", str "mobile", str "smartphone", str "laptop", str "tablet",
   str "watch", str "speaker"]

/-- Test of the device word pattern against the lower cased title. -/
def hasDeviceWord (title : Str) : Bool :=
  deviceWords.any (fun k => jsIncludes (lowerStr title) k)

/-- Model of filterAccessories from src/services/matcher.ts. -/
def filterAccessories (source : Product) (candidates : List Product) :
    List Product :=
  let sourceIsAccessory := isAccessory source.title
  candidates.filter (fun c =>
    if sourceIsAccessory then true
    else if hasDeviceWord c.title then true
    else !(isAccessory c.title))

/-- Extracted attribute record of the legacy matcher; the size and variant
fields are always empty. -/
structure Attributes where
  model : Str
  storage : Str
  ram : Str
  color : Str
  size : Str
  variant : Str
  brand : Str
deriving DecidableEq

/-- Model of extractAttributes from src/services/matcher.ts. -/
def extractAttributes (product : Product) : Attributes :=
  { model := extractModel product.title
    storage := extractStorage product.title
    ram := extractRAM product.title
    color := extractColor product.title
    size := []
    variant := []
    brand := normalizeBrand product.brand }

/-- Shared significant digit run test: both strings contain an identical
maximal digit run of length at least two. -/
def sharesNumRun (s1 s2 : Str) : Bool :=
  (digitRuns s1).any (fun n => (digitRuns s2).contains n && 2 ≤ n.length)

/-- Model of compareModels: cleaned equality, containment, or a shared
significant digit run. -/
def compareModels (model1 model2 : Str) : Bool :=
  if model1 = [] ∨ model2 = [] then false
  else
    let clean1 := (lowerStr model1).filter alnumLower
    let clean2 := (lowerStr model2).filter alnumLower
    if clean1 = clean2 then true
    else if jsIncludes clean1 clean2 || jsIncludes clean2 clean1 then true
    else sharesNumRun clean1 clean2

/-- Common brand keyword list of compareBrands. -/
def commonBrandWords : List Str :=
  [str "iphone", str "samsung", str "galaxy", str "oneplus", str "xiaomi",
   str "redmi", str "mi", str "oppo", str "vivo", str "realme", str "pixel",
   str "poco", str "motorola", str "moto", str "nokia", str "asus",
   str "lenovo", str "dell", str "hp", str "acer", str "apple", str "macbook"]

/-- Model of compareBrands from src/services/matcher.ts. -/
def compareBrands (attr1 attr2 : Attributes) : Bool :=
  let brand1 := attr1.brand
  let brand2 := attr2.brand
  if brand1 ≠ [] ∧ brand2 ≠ [] ∧ brandsMatch brand1 brand2 then true
  else
    let model1 := lowerStr attr1.model
    let model2 := lowerStr attr2.model
    if model1 ≠ [] ∧ model2 ≠ [] ∧
        (model1 = model2 || jsIncludes model1 model2 || jsIncludes model2 model1) then
      true
    else if commonBrandWords.any
        (fun b => jsIncludes model1 b && jsIncludes model2 b) then true
    else sharesNumRun model1 model2

/-- Stop word set of the legacy tokenizer. -/
def stopWordsLegacy : List Str :=
  [str "the", str "a", str "an", str "and", str "or", str "for", str "with",
   str "from", str "to", str "in", str "on", str "at"]

/-- Model of the legacy tokenize: lower case, replace non word non space
characters by spaces, split, keep words of length above two that are not
stop words. -/
def tokenizeLegacy (text : Str) : List Str :=
  let cleaned := (lowerStr text).map (fun c =>
    if wordChar c || wsChar c then c else spaceChar)
  (splitWs cleaned).filter (fun w => 2 < w.length && !(stopWordsLegacy.contains w))

/-- Model of calculateTextSimilarity: Jaccard similarity over legacy tokens,
zero when the union is empty. -/
def calculateTextSimilarity (text1 text2 : Str) : ℚ :=
  let set1 := (tokenizeLegacy text1).toFinset
  let set2 := (tokenizeLegacy text2).toFinset
  if 0 < (set1 ∪ set2).card then
    ((set1 ∩ set2).card : ℚ) / ((set1 ∪ set2).card : ℚ)
  else 0

/-- Model of hasCommonKeywords: at least two shared legacy tokens, counted
with the multiplicity of the first token list. -/
def hasCommonKeywords (title1 title2 : Str) : Bool :=
  let keywords1 := tokenizeLegacy title1
  let keywords2 := tokenizeLegacy title2
  2 ≤ (keywords1.filter (fun k => keywords2.contains k)).length

/-- Construction of a level one exact identifier result. -/
def mkExactIdResult (c : Product) : MatchResult :=
  { product := c
    confidence := 100
    matchLevel := MatchLevel.EXACT_ID
    matchBadge := str "🎯 EXACT"
    matchReason := str "Exact Product ID"
    similarity := none }

/-- Model of findExactIdMatches: the candidates whose product identifier
equals that of the source, annotated with full confidence. -/
def findExactIdMatches (source : Product) (candidates : List Product) :
    List MatchResult :=
  (candidates.filter (fun c => c.productId == source.productId)).map
    mkExactIdResult

/-- Model of findBrandModelStorageMatches, level two of the legacy
matcher. -/
def findBrandModelStorageMatches (sourceAttrs : Attributes)
    (candidates : List Product) : List MatchResult :=
  if sourceAttrs.model = [] then []
  else
    candidates.filterMap (fun candidate =>
      let candAttrs := extractAttributes candidate
      if compareModels sourceAttrs.model candAttrs.model then
        if sourceAttrs.storage ≠ [] ∧ candAttrs.storage ≠ [] then
          if sourceAttrs.storage = candAttrs.storage then
            some { product := candidate
                   confidence := 95
                   matchLevel := MatchLevel.EXACT
                   matchBadge := str "🎯 EXACT"
                   matchReason := candAttrs.model ++ [spaceChar] ++ candAttrs.storage
                   similarity := none }
          else
            some { product := candidate
                   confidence := 80
                   matchLevel := MatchLevel.HIGH
                   matchBadge := str "✓ HIGH"
                   matchReason := candAttrs.model ++ str " (different storage)"
                   similarity := none }
        else
          some { product := candidate
                 confidence := 85
                 matchLevel := MatchLevel.HIGH
                 matchBadge := str "✓ HIGH"
                 matchReason := candAttrs.model
                 similarity := none }
      else none)

/-- Model of findBrandModelMatches, level three of the legacy matcher, with
its price proximity boost. -/
def findBrandModelMatches (source : Product) (sourceAttrs : Attributes)
    (candidates : List Product) : List MatchResult :=
  if sourceAttrs.model = [] then []
  else
    candidates.filterMap (fun candidate =>
      let candAttrs := extractAttributes candidate
      let brandsOk := compareBrands sourceAttrs candAttrs
      let modelsOk := candAttrs.model ≠ [] ∧
        compareModels sourceAttrs.model candAttrs.model
      if brandsOk ∨ modelsOk then
        let similarity := calculateTextSimilarity source.title candidate.title
        let base := min 84 (max 70 (jsRound (70 + similarity * 14)))
        let priceRatio := candidate.numericPrice / source.numericPrice
        let confidence :=
          if 0.7 ≤ priceRatio ∧ priceRatio ≤ 1.3 then min 95 (base + 10)
          else base
        some { product := candidate
               confidence := confidence
               matchLevel := MatchLevel.MEDIUM
               matchBadge := str "≈ MEDIUM"
               matchReason :=
                 if candAttrs.model ≠ [] then candAttrs.model
                 else str "Similar model"
               similarity := some similarity }
      else none)

/-- Rendering of an integer into its decimal digits, for the fuzzy match
reason text. -/
def intToStr (n : ℤ) : Str := (Int.repr n).toList

/-- Model of findFuzzyMatches, level four of the legacy matcher. -/
def findFuzzyMatches (source : Product) (sourceAttrs : Attributes)
    (candidates : List Product) : List MatchResult :=
  candidates.filterMap (fun candidate =>
    let candAttrs := extractAttributes candidate
    let brandsOk := compareBrands sourceAttrs candAttrs
    let similarity := calculateTextSimilarity source.title candidate.title
    let common := hasCommonKeywords source.title candidate.title
    if 0.15 ≤ similarity ∨ brandsOk ∨ common then
      let base := min 69 (max 5 (jsRound (5 + similarity * 64)))
      let priceRatio := candidate.numericPrice / source.numericPrice
      let confidence :=
        if 0.7 ≤ priceRatio ∧ priceRatio ≤ 1.3 then min 80 (base + 15)
        else base
      if MIN_CONFIDENCE_LEGACY ≤ confidence then
        some { product := candidate
               confidence := confidence
               matchLevel := MatchLevel.LOW
               matchBadge := str "~ RELATED"
               matchReason := str "Similar product (" ++
                 intToStr (jsRound (similarity * 100)) ++ str "% match)"
               similarity := some similarity }
      else none
    else none)

/-- Descending stable ordering on legacy results by confidence. -/
def legacyLe (a b : MatchResult) : Prop := b.confidence ≤ a.confidence

instance : DecidableRel legacyLe := fun a b => Int.decLe b.confidence a.confidence

instance : IsTotal MatchResult legacyLe :=
  ⟨fun a b => le_total b.confidence a.confidence⟩

instance : IsTrans MatchResult legacyLe :=
  ⟨fun _ _ _ h1 h2 => le_trans h2 h1⟩

/-- Model of sortAndLimit: drop results below the minimum confidence, sort
by descending confidence (stable) and keep the first few. -/
def sortAndLimit (results : List MatchResult) (limit : ℕ) : List MatchResult :=
  (((results.filter (fun m => decide (MIN_CONFIDENCE_LEGACY ≤ m.confidence))).insertionSort
    legacyLe)).take limit

/-- Validation filter of the legacy matcher. -/
def legacyValid (candidates : List Product) : List Product :=
  candidates.filter (fun p =>
    decide (10 ≤ p.numericPrice) && decide (5 ≤ p.title.length))

/-- Candidates surviving validation and the accessory filter of the legacy
matcher. -/
def legacyFiltered (source : Product) (candidates : List Product) :
    List Product :=
  filterAccessories source (legacyValid candidates)

/-- Model of the legacy findMatches from src/services/matcher.ts: validate,
filter accessories, then levels one to four with the early exits of the
source. -/
def legacyFindMatches (sourceProduct : Product) (candidates : List Product) :
    List MatchResult :=
  let filtered := legacyFiltered sourceProduct candidates
  if filtered.length = 0 then []
  else
    let sourceAttrs := extractAttributes sourceProduct
    let exactMatches :=
      if sourceProduct.productId ≠ [] then
        findExactIdMatches sourceProduct filtered
      else []
    if sourceProduct.productId ≠ [] ∧ 0 < exactMatches.length then
      sortAndLimit exactMatches 20
    else
      let level2 := findBrandModelStorageMatches sourceAttrs filtered
      if 5 ≤ level2.length then sortAndLimit level2 20
      else
        let level3 := findBrandModelMatches sourceProduct sourceAttrs filtered
        let matches23 := level2 ++ level3
        let combined :=
          if matches23.length < 3 then
            matches23 ++ findFuzzyMatches sourceProduct sourceAttrs filtered
          else matches23
        sortAndLimit combined 20

/-!
The colour variant deduplicator from src/utils/product.ts.
-/

/-- Colour keyword list of deduplicateColorVariants, in source order. -/
def dedupColorKeywords : List Str :=
  [str "black", str "white", str "blue", str "red", str "green",
   str "yellow", str "pink", str "purple", str "grey", str "gray",
   str "silver", str "gold", str "rose", str "midnight", str "starlight",
   str "coral", str "velvet", str "ocean", str "space", str "titanium",
   str "natural", str "pro"]

/-- Removal of every occurrence of a word, case insensitive and delimited by
word boundaries, as performed by a global replace with an empty replacement.
Occurrences and boundaries are found on the original string, scanning left
to right without overlap. -/
def removeWordAll (w : Str) (prev : Option Char) (s : Str) : Str :=
  if h : w ≠ [] ∧ hasPfx (lowerStr w) (lowerStr (s.take w.length)) ∧
      (s.take w.length).length = w.length ∧ atBoundary prev s ∧
      atBoundary ((s.take w.length).getLast?) (s.drop w.length) then
    removeWordAll w ((s.take w.length).getLast?) (s.drop w.length)
  else
    match s with
    | [] => []
    | c :: rest => c :: removeWordAll w (some c) rest
  termination_by s.length
  decreasing_by
    · have hw : 0 < w.length := List.length_pos.mpr h.1
      have : (List.drop w.length s).length = s.length - w.length :=
        List.length_drop _ _
      have hs : w.length ≤ s.length := by
        have := h.2.2.1
        have h2 := List.length_take w.length s
        omega
      omega
    · simp

/-- Strip of the colour keywords from a lower cased title, with the trim
that the source applies after each replacement. -/
def stripColorWords (titleLower : Str) : Str :=
  dedupColorKeywords.foldl (fun t color => strTrim (removeWordAll color none t))
    titleLower

/-- Deduplication base key of a match result: site, brand and the title with
colour keywords removed and whitespace collapsed, joined by vertical bars. -/
def dedupKey (m : MatchResult) : Str :=
  let baseTitle := joinSep [spaceChar] (splitWs (stripColorWords (lowerStr m.product.title)))
  m.product.site ++ [barChar] ++ m.product.brand ++ [barChar] ++ baseTitle

/-- Reduction of a nonempty group to its first cheapest member, the source
reduce with a strict comparison on numericPrice. -/
def reduceMinPrice (h : MatchResult) (t : List MatchResult) : MatchResult :=
  t.foldl (fun mn curr =>
    if curr.product.numericPrice < mn.product.numericPrice then curr else mn) h

/-- Reduction of a group list, none on the empty group. -/
def groupMin (g : List MatchResult) : Option MatchResult :=
  match g with
  | [] => none
  | h :: t => some (reduceMinPrice h t)

/-- Model of deduplicateColorVariants from src/utils/product.ts: group the
results by key in a map that iterates keys in first occurrence order, and
keep the first cheapest member of every group. -/
def deduplicateColorVariants (results : List MatchResult) : List MatchResult :=
  (firstOccs (results.map dedupKey)).filterMap (fun k =>
    groupMin (results.filter (fun m => dedupKey m == k)))

/-!
Concrete inputs used by the closed instances of the theorems below.
-/

/-- A feature record with every field empty. -/
def emptyFeatures : Features :=
  { brand := [], model := [], storage := [], ram := [], color := [],
    tokens := [], bigrams := [], trigrams := [], numbers := [] }

/-- A product with a distant price and an unrelated category, used to probe
the price penalty. -/
def probeProd1 : Product :=
  { site := str "s1", title := str "alpha beta gamma", price := str "100",
    numericPrice := 100, url := [], image := [], productId := str "x1",
    brand := [], category := str "aaa" }

/-- A second probe product whose price is just above twice the first. -/
def probeProd2 : Product :=
  { site := str "s2", title := str "delta epsilon zeta", price := str "201",
    numericPrice := 201, url := [], image := [], productId := str "x2",
    brand := [], category := str "bbb" }

/-- Features with a storage capacity of 256 gigabytes and nothing else. -/
def feat256 : Features := { emptyFeatures with storage := str "256GB" }

/-- Features with a storage capacity of 128 gigabytes and nothing else. -/
def feat128 : Features := { emptyFeatures with storage := str "128GB" }

/-- A phone source product for the category filter instance. -/
def srcPhone : Product :=
  { site := str "amazon", title := str "Apple iPhone 15 Pro Max 256GB",
    price := str "139900", numericPrice := 139900, url := [], image := [],
    productId := str "ip15", brand := str "Apple",
    category := str "electronics-phone" }

/-- A laptop candidate for the category filter instance. -/
def candLaptop : Product :=
  { site := str "flipkart", title := str "Dell XPS 15 laptop 16GB RAM",
    price := str "149900", numericPrice := 149900, url := [], image := [],
    productId := str "dx15", brand := str "Dell", category := str "laptop" }

/-- A laptop source product for the symmetric category filter instance. -/
def srcLaptop : Product :=
  { site := str "amazon", title := str "Dell XPS 15 laptop",
    price := str "149900", numericPrice := 149900, url := [], image := [],
    productId := str "dx", brand := str "Dell", category := str "gaming-laptop" }

/-- A source product with a product identifier, for the exact identifier
instances. -/
def srcWithId : Product :=
  { site := str "amazon", title := str "Apple iPhone 15 Pro",
    price := str "100", numericPrice := 100, url := [], image := [],
    productId := str "a1", brand := str "Apple", category := [] }

/-- A candidate sharing the identifier of srcWithId while differing in
title, brand, price and category. -/
def candSameId : Product :=
  { site := str "flipkart", title := str "totally different thing",
    price := str "5000", numericPrice := 5000, url := [], image := [],
    productId := str "a1", brand := str "Samsung", category := str "zzz" }

/-- A candidate sharing the identifier of srcWithId whose price is below the
validity floor. -/
def candCheapId : Product :=
  { site := str "flipkart", title := str "totally different thing",
    price := str "5", numericPrice := 5, url := [], image := [],
    productId := str "a1", brand := str "Samsung", category := str "zzz" }

/-- A source product with an empty product identifier. -/
def srcNoId : Product :=
  { site := str "amazon", title := str "Apple iPhone 15 Pro",
    price := str "100", numericPrice := 100, url := [], image := [],
    productId := [], brand := str "Apple", category := [] }

/-- A candidate with an empty product identifier as well. -/
def candNoId : Product :=
  { site := str "flipkart", title := str "Apple iPhone 15 Pro 256GB",
    price := str "110", numericPrice := 110, url := [], image := [],
    productId := [], brand := str "Apple", category := [] }

/-- A helper building a plain match result around a product. -/
def plainResult (p : Product) : MatchResult :=
  { product := p, confidence := 90, matchLevel := MatchLevel.HIGH,
    matchBadge := [], matchReason := [], similarity := none }

/-- First colour variant for the deduplication instances. -/
def variantBlack : MatchResult :=
  plainResult { srcPhone with title := str "iPhone 15 Black", numericPrice := 100 }

/-- Second colour variant for the deduplication instances, cheaper. -/
def variantWhite : MatchResult :=
  plainResult { srcPhone with title := str "iPhone 15 White", numericPrice := 90 }

/-!
Character level lemmas about the ASCII case maps.
-/

/-- Reading back the code point of a character built from a valid code
point. -/
theorem toNat_ofNatAux (n : ℕ) (h : n.isValidChar) :
    (Char.ofNatAux n h).toNat = n := by
  unfold Char.ofNatAux Char.toNat
  rfl

/-- Characters with equal code points are equal. -/
theorem charEq_of_toNat_eq {c d : Char} (h : c.toNat = d.toNat) : c = d := by
  have hc := Char.ofNat_toNat c
  rw [h] at hc
  rw [← hc, Char.ofNat_toNat]

/-- Code point of the lower cased character. -/
theorem lowerChar_toNat (c : Char) :
    (lowerChar c).toNat =
      if 65 ≤ c.toNat ∧ c.toNat ≤ 90 then c.toNat + 32 else c.toNat := by
  unfold lowerChar
  split
  · exact toNat_ofNatAux _ _
  · rfl

/-- Code point of the upper cased character. -/
theorem upperChar_toNat (c : Char) :
    (upperChar c).toNat =
      if 97 ≤ c.toNat ∧ c.toNat ≤ 122 then c.toNat - 32 else c.toNat := by
  unfold upperChar
  split
  · exact toNat_ofNatAux _ _
  · rfl

/-- Lower casing is idempotent. -/
theorem lowerChar_lowerChar (c : Char) : lowerChar (lowerChar c) = lowerChar c := by
  apply charEq_of_toNat_eq
  simp only [lowerChar_toNat]
  split_ifs <;> omega

/-- Upper casing is idempotent. -/
theorem upperChar_upperChar (c : Char) : upperChar (upperChar c) = upperChar c := by
  apply charEq_of_toNat_eq
  simp only [upperChar_toNat]
  split_ifs <;> omega

/-- Lower casing absorbs a preceding upper casing. -/
theorem lowerChar_upperChar (c : Char) : lowerChar (upperChar c) = lowerChar c := by
  apply charEq_of_toNat_eq
  simp only [lowerChar_toNat, upperChar_toNat]
  split_ifs <;> omega

/-- Lower casing a string twice equals lower casing it once. -/
theorem lowerStr_lowerStr (s : Str) : lowerStr (lowerStr s) = lowerStr s := by
  unfold lowerStr
  rw [List.map_map]
  apply List.map_congr_left
  intro c _
  exact lowerChar_lowerChar c

/-!
Idempotence of brand normalisation, claim C7.
-/

/-- Each canonical brand name of the alias table normalises to itself; a
finite computation over the table. -/
theorem canon_fixed : ∀ e ∈ BRAND_ALIASES, normalizeBrand e.1 = e.1 := by decide

/-- The result of the canonical lookup is a canonical table entry. -/
theorem findCanon_mem {n c : Str} (h : findCanon n = some c) :
    ∃ e ∈ BRAND_ALIASES, e.1 = c := by
  unfold findCanon at h
  rw [Option.map_eq_some'] at h
  obtain ⟨e, he, hec⟩ := h
  exact ⟨e, List.mem_of_find?_eq_some he, hec⟩

/-- The result of the alias lookup is a canonical table entry. -/
theorem findAlias_mem {n c : Str} (h : findAlias n = some c) :
    ∃ e ∈ BRAND_ALIASES, e.1 = c := by
  unfold findAlias at h
  rw [Option.map_eq_some'] at h
  obtain ⟨e, he, hec⟩ := h
  exact ⟨e, List.mem_of_find?_eq_some he, hec⟩

/-- Lower casing the capitalisation fallback gives the lower cased input. -/
theorem lowerStr_capLower (b : Str) : lowerStr (capLower b) = lowerStr b := by
  cases b with
  | nil => rfl
  | cons c rest =>
    show lowerChar (upperChar c) :: lowerStr (lowerStr rest) =
      lowerChar c :: lowerStr rest
    rw [lowerChar_upperChar, lowerStr_lowerStr]

/-- The capitalisation fallback is idempotent. -/
theorem capLower_capLower (b : Str) : capLower (capLower b) = capLower b := by
  cases b with
  | nil => rfl
  | cons c rest =>
    show upperChar (upperChar c) :: lowerStr (lowerStr rest) =
      upperChar c :: lowerStr rest
    rw [upperChar_upperChar, lowerStr_lowerStr]

/-- The capitalisation fallback of a nonempty string is nonempty. -/
theorem capLower_ne_nil {b : Str} (h : b ≠ []) : capLower b ≠ [] := by
  cases b with
  | nil => exact absurd rfl h
  | cons c rest => simp [capLower]

/-- C7.  Brand normalisation is idempotent: applying normalizeBrand to any
of its results returns that result unchanged; in particular canonical names
and already produced values are fixed points. -/
theorem normalizeBrand_idempotent (x : Str) :
    normalizeBrand (normalizeBrand x) = normalizeBrand x := by
  by_cases hx : x = []
  · subst hx
    rfl
  · have hx2 : normalizeBrand x =
        match findCanon (strTrim (lowerStr x)) with
        | some c => c
        | none =>
          match findAlias (strTrim (lowerStr x)) with
          | some c => c
          | none => capLower x := by
      simp only [normalizeBrand, if_neg hx]
    cases hcan : findCanon (strTrim (lowerStr x)) with
    | some c =>
      rw [hx2, hcan]
      obtain ⟨e, he, hec⟩ := findCanon_mem hcan
      rw [← hec]
      exact canon_fixed e he
    | none =>
      cases halias : findAlias (strTrim (lowerStr x)) with
      | some c =>
        rw [hx2, hcan, halias]
        obtain ⟨e, he, hec⟩ := findAlias_mem halias
        rw [← hec]
        exact canon_fixed e he
      | none =>
        rw [hx2, hcan, halias]
        show normalizeBrand (capLower x) = capLower x
        simp only [normalizeBrand, if_neg (capLower_ne_nil hx),
          lowerStr_capLower, hcan, halias]
        exact capLower_capLower x

/-!
Storage partial credit in the specs sub score, claim C8.
-/

/-- C8.  When both storage strings are present, the storage contribution of
scoreSpecs is eight for equal strings and otherwise exactly four precisely
when the parsed leading integers differ by at most 128; the two remaining
spec contributions add independently. -/
theorem scoreSpecs_storage_credit (f1 f2 : Features) (n1 n2 : ℤ)
    (h1 : f1.storage ≠ []) (h2 : f2.storage ≠ [])
    (hp1 : parseIntM f1.storage = some n1) (hp2 : parseIntM f2.storage = some n2) :
    scoreSpecs f1 f2 =
      (if f1.storage = f2.storage then 8 else if |n1 - n2| ≤ 128 then (4 : ℚ) else 0) +
        ramPart f1 f2 + colorPart f1 f2 := by
  unfold scoreSpecs storagePart
  rw [if_pos ⟨h1, h2⟩]
  by_cases he : f1.storage = f2.storage
  · rw [if_pos he, if_pos he]
  · rw [if_neg he, if_neg he, hp1, hp2]

/-- Closed instance of C8 at the boundary: 256 gigabytes against 128
gigabytes differ by exactly 128, which earns the partial credit. -/
theorem scoreSpecs_storage_credit_boundary :
    feat256.storage ≠ [] ∧ feat128.storage ≠ [] ∧
    parseIntM feat256.storage = some 256 ∧ parseIntM feat128.storage = some 128 ∧
    |(256 : ℤ) - 128| ≤ 128 ∧
    scoreSpecs feat256 feat128 =
      (if feat256.storage = feat128.storage then 8
       else if |(256 : ℤ) - 128| ≤ 128 then (4 : ℚ) else 0) +
        ramPart feat256 feat128 + colorPart feat256 feat128 :=
  ⟨by decide, by decide, by decide, by decide, by decide,
   scoreSpecs_storage_credit feat256 feat128 256 128 (by decide) (by decide)
     (by decide) (by decide)⟩

/-!
Properties of the Levenshtein table needed for the similarity ratio,
claim C9.
-/

/-- Last entry of a mapped initial range. -/
theorem getLastD_map_range (f : ℕ → ℕ) (n : ℕ) :
    ((List.range (n + 1)).map f).getLastD 0 = f n := by
  rw [List.range_succ, List.map_append]
  exact List.getLastD_concat _ _ _

/-- Distance of a string to the empty second string. -/
theorem lev_nil_right (s : Str) : levenshteinDistance s [] = s.length := by
  unfold levenshteinDistance
  simp only [List.foldl_nil]
  have := getLastD_map_range id s.length
  simpa using this

/-- Fold behaviour when the first string is empty: every row collapses to a
single cell holding the row index. -/
theorem levFold_nil_left (l : Str) : ∀ (k : ℕ),
    l.foldl (fun acc c2 => (levRow c2 [] acc.1 (acc.2 + 1), acc.2 + 1)) ([k], k)
      = ([k + l.length], k + l.length) := by
  induction l with
  | nil => intro k; simp
  | cons c rest ih =>
    intro k
    have hstep : levRow c [] [k] (k + 1) = [k + 1] := rfl
    simp only [List.foldl_cons, hstep, ih, List.length_cons]
    rw [show k + 1 + rest.length = k + (rest.length + 1) from by omega]

/-- Distance of the empty first string to a string. -/
theorem lev_nil_left (s : Str) : levenshteinDistance [] s = s.length := by
  simp only [levenshteinDistance]
  have h0 : List.range (List.length ([] : Str) + 1) = [0] := rfl
  rw [h0, levFold_nil_left s 0]
  simp

/-- Row update along the diagonal invariant: when the current row character
is the character of the common string at the row position, every cell of the
new row holds the distance of its row and column indices. -/
theorem levRowAux_dist (c2 : Char) (s : Str) (i : ℕ) (hi : 1 ≤ i)
    (hc : (s.drop (i - 1)).head? = some c2) :
    ∀ (t : Str) (j0 : ℕ), t = s.drop j0 →
      levRowAux c2 t
          ((List.range' j0 (t.length + 1)).map (fun j => Nat.dist (i - 1) j))
          (Nat.dist i j0)
        = (List.range' (j0 + 1) t.length).map (fun j => Nat.dist i j) := by
  intro t
  induction t with
  | nil => intro j0 _; rfl
  | cons c1 rest ih =>
    intro j0 ht
    have hrest : rest = s.drop (j0 + 1) := by
      have h1 : List.drop 1 (List.drop j0 s) = List.drop (j0 + 1) s := by
        rw [List.drop_drop]
      rw [← ht] at h1
      simpa using h1
    have hij : i = j0 + 1 → c2 = c1 := by
      intro h
      have hhead : (s.drop (i - 1)).head? = some c1 := by
        rw [h, Nat.add_sub_cancel, ← ht]
        rfl
      rw [hc] at hhead
      injection hhead
    have hcell :
        (if c2 = c1 then Nat.dist (i - 1) j0
         else Nat.min (Nat.dist (i - 1) j0 + 1)
           (Nat.min (Nat.dist i j0 + 1) (Nat.dist (i - 1) (j0 + 1) + 1)))
          = Nat.dist i (j0 + 1) := by
      by_cases hch : c2 = c1
      · rw [if_pos hch]
        simp only [Nat.dist]
        omega
      · rw [if_neg hch]
        have hne : i ≠ j0 + 1 := fun h => hch (hij h)
        simp only [Nat.dist, Nat.min_def]
        split_ifs <;> omega
    have hprow : ((List.range' j0 ((c1 :: rest).length + 1)).map
          (fun j => Nat.dist (i - 1) j))
        = Nat.dist (i - 1) j0 ::
          ((List.range' (j0 + 1) (rest.length + 1)).map (fun j => Nat.dist (i - 1) j)) := by
      rfl
    rw [hprow]
    show (if c2 = c1 then Nat.dist (i - 1) j0
         else Nat.min (Nat.dist (i - 1) j0 + 1)
           (Nat.min (Nat.dist i j0 + 1)
             ((((List.range' (j0 + 1) (rest.length + 1)).map
               (fun j => Nat.dist (i - 1) j)).headD 0) + 1)))
        :: levRowAux c2 rest
            ((List.range' (j0 + 1) (rest.length + 1)).map (fun j => Nat.dist (i - 1) j))
            (if c2 = c1 then Nat.dist (i - 1) j0
             else Nat.min (Nat.dist (i - 1) j0 + 1)
               (Nat.min (Nat.dist i j0 + 1)
                 ((((List.range' (j0 + 1) (rest.length + 1)).map
                   (fun j => Nat.dist (i - 1) j)).headD 0) + 1)))
        = (List.range' (j0 + 1) (c1 :: rest).length).map (fun j => Nat.dist i j)
    have hhd : (((List.range' (j0 + 1) (rest.length + 1)).map
        (fun j => Nat.dist (i - 1) j)).headD 0) = Nat.dist (i - 1) (j0 + 1) := rfl
    rw [hhd, hcell, ih (j0 + 1) hrest]
    rfl

/-- Full row version of the diagonal invariant. -/
theorem levRow_dist (c2 : Char) (s : Str) (i : ℕ) (hi : 1 ≤ i)
    (hc : (s.drop (i - 1)).head? = some c2) :
    levRow c2 s ((List.range (s.length + 1)).map (fun j => Nat.dist (i - 1) j)) i
      = (List.range (s.length + 1)).map (fun j => Nat.dist i j) := by
  have haux := levRowAux_dist c2 s i hi hc s 0 rfl
  unfold levRow
  rw [List.range_eq_range']
  have hsplit : (List.range' 0 (s.length + 1)).map (fun j => Nat.dist i j)
      = Nat.dist i 0 :: (List.range' 1 s.length).map (fun j => Nat.dist i j) := rfl
  rw [hsplit, ← haux]
  have hzero : Nat.dist i 0 = i := by simp [Nat.dist]
  rw [hzero]

/-- Fold of the rows over the common string preserves the diagonal
invariant. -/
theorem levFold_self (s : Str) : ∀ (t : Str) (i : ℕ), t = s.drop i →
    t.foldl (fun acc c2 => (levRow c2 s acc.1 (acc.2 + 1), acc.2 + 1))
        ((List.range (s.length + 1)).map (fun j => Nat.dist i j), i)
      = ((List.range (s.length + 1)).map (fun j => Nat.dist (i + t.length) j),
         i + t.length) := by
  intro t
  induction t with
  | nil => intro i _; simp
  | cons c rest ih =>
    intro i ht
    have hc : (s.drop ((i + 1) - 1)).head? = some c := by
      rw [Nat.add_sub_cancel, ← ht]
      rfl
    have hrest : rest = s.drop (i + 1) := by
      have h1 : List.drop 1 (List.drop i s) = List.drop (i + 1) s := by
        rw [List.drop_drop]
      rw [← ht] at h1
      simpa using h1
    have hrow := levRow_dist c s (i + 1) (by omega) hc
    rw [Nat.add_sub_cancel] at hrow
    simp only [List.foldl_cons, hrow, ih (i + 1) hrest, List.length_cons]
    rw [show i + 1 + rest.length = i + (rest.length + 1) from by omega]

/-- The Levenshtein distance of a string to itself is zero over the table
computation. -/
theorem lev_self (s : Str) : levenshteinDistance s s = 0 := by
  simp only [levenshteinDistance]
  have h0 : (List.range (s.length + 1)).map (fun j => Nat.dist 0 j)
      = List.range (s.length + 1) := by
    have hpt : ∀ j ∈ List.range (s.length + 1), Nat.dist 0 j = id j :=
      fun j _ => by simp [Nat.dist]
    rw [List.map_congr_left hpt, List.map_id]
  rw [← h0, levFold_self s s 0 rfl]
  simp only [Nat.zero_add]
  rw [getLastD_map_range]
  exact Nat.dist_self _

/-- C9 (amended).  When at least one string is nonempty the similarity ratio
equals the edit distance complement relative to the longer length, identical
nonempty strings yield one, and a single empty side yields zero.  The
original claim fails only on the pair of empty strings, for which the code
returns one through its identity branch. -/
theorem stringSimilarity_formula (s1 s2 : Str) (h : s1 ≠ [] ∨ s2 ≠ []) :
    stringSimilarity s1 s2 =
      (((max s1.length s2.length : ℕ) : ℚ) - (levenshteinDistance s1 s2 : ℚ)) /
        ((max s1.length s2.length : ℕ) : ℚ) ∧
    (s1 = s2 → stringSimilarity s1 s2 = 1) ∧
    ((s1 = [] ∨ s2 = []) → stringSimilarity s1 s2 = 0) := by
  refine ⟨?_, ?_, ?_⟩
  · by_cases heq : s1 = s2
    · subst heq
      have hne : s1 ≠ [] := by
        rcases h with h1 | h1 <;> exact h1
      have hlen : 0 < s1.length := List.length_pos.mpr hne
      rw [stringSimilarity, if_pos rfl, lev_self, Nat.max_self]
      have hq : (0 : ℚ) < (s1.length : ℚ) := by exact_mod_cast hlen
      rw [Nat.cast_zero, sub_zero, div_self (ne_of_gt hq)]
    · by_cases h1 : s1 = []
      · subst h1
        have h2 : s2 ≠ [] := by
          rcases h with h1 | h1
          · exact absurd rfl h1
          · exact h1
        rw [stringSimilarity, if_neg heq,
          if_pos (show List.length ([] : Str) = 0 ∨ List.length s2 = 0 from
            Or.inl rfl),
          lev_nil_left]
        have hmax : max (List.length ([] : Str)) s2.length = s2.length := by
          simp
        rw [hmax, sub_self, zero_div]
      · by_cases h2 : s2 = []
        · subst h2
          rw [stringSimilarity, if_neg heq,
            if_pos (show List.length s1 = 0 ∨ List.length ([] : Str) = 0 from
              Or.inr rfl),
            lev_nil_right]
          have hmax : max s1.length (List.length ([] : Str)) = s1.length := by
            simp
          rw [hmax, sub_self, zero_div]
        · have hl1 : 0 < s1.length := List.length_pos.mpr h1
          have hl2 : 0 < s2.length := List.length_pos.mpr h2
          rw [stringSimilarity, if_neg heq,
            if_neg (show ¬ (List.length s1 = 0 ∨ List.length s2 = 0) by
              push_neg
              exact ⟨by omega, by omega⟩)]
          by_cases hcmp : s2.length < s1.length
          · rw [if_pos hcmp, if_neg (show ¬ List.length s1 = 0 by omega)]
            have hmax : max s1.length s2.length = s1.length := by omega
            rw [hmax]
          · rw [if_neg hcmp, if_neg (show ¬ List.length s2 = 0 by omega)]
            have hmax : max s1.length s2.length = s2.length := by omega
            rw [hmax]
  · intro heq
    rw [stringSimilarity, if_pos heq]
  · intro hempty
    rcases hempty with h1 | h2
    · subst h1
      have h2 : s2 ≠ [] := by
        rcases h with h1 | h1
        · exact absurd rfl h1
        · exact h1
      have hne : ([] : Str) ≠ s2 := fun he => h2 he.symm
      rw [stringSimilarity, if_neg hne,
        if_pos (show List.length ([] : Str) = 0 ∨ List.length s2 = 0 from
          Or.inl rfl)]
    · subst h2
      have h1 : s1 ≠ [] := by
        rcases h with h1 | h1
        · exact h1
        · exact absurd rfl h1
      rw [stringSimilarity, if_neg h1,
        if_pos (show List.length s1 = 0 ∨ List.length ([] : Str) = 0 from
          Or.inr rfl)]

/-- Counterexample to C9 as stated: on two empty strings the code returns
one through the identity branch, while the claim demands zero for any empty
side. -/
theorem stringSimilarity_both_empty :
    stringSimilarity [] [] = 1 ∧ stringSimilarity [] [] ≠ 0 := by
  constructor
  · rfl
  · intro hcontra
    have h1 : (1 : ℚ) = 0 := by
      rw [← hcontra]
      rfl
    norm_num at h1

/-!
Bounds of the sub scores and the capped total, claim C1.
-/

/-- Token overlap is nonnegative. -/
theorem calculateTokenOverlap_nonneg (t1 t2 : List Str) :
    0 ≤ calculateTokenOverlap t1 t2 := by
  unfold calculateTokenOverlap
  split
  · exact le_refl 0
  · positivity

/-- Token overlap is at most one. -/
theorem calculateTokenOverlap_le_one (t1 t2 : List Str) :
    calculateTokenOverlap t1 t2 ≤ 1 := by
  unfold calculateTokenOverlap
  split
  · norm_num
  · rename_i hne
    apply div_le_one_of_le₀
    · have hsub : (t1.toFinset ∩ t2.toFinset) ⊆ (t1.toFinset ∪ t2.toFinset) :=
        Finset.inter_subset_union
      exact_mod_cast Finset.card_le_card hsub
    · positivity

/-- The brand score is nonnegative. -/
theorem scoreBrand_nonneg (b1 b2 : Str) : 0 ≤ scoreBrand b1 b2 := by
  unfold scoreBrand WEIGHT_BRAND
  split_ifs <;> try norm_num
  split_ifs <;> norm_num

/-- The model score is nonnegative. -/
theorem scoreModel_nonneg (m1 m2 : Str) (t1 t2 : List Str) :
    0 ≤ scoreModel m1 m2 t1 t2 := by
  unfold scoreModel WEIGHT_MODEL
  split_ifs with h1
  · exact mul_nonneg (calculateTokenOverlap_nonneg t1 t2) (by norm_num)
  · dsimp only
    split_ifs with h2 h3 h4
    · norm_num
    · norm_num
    · have hsim : (0 : ℚ) ≤ stringSimilarity ((lowerStr m1).filter alnumLower)
          ((lowerStr m2).filter alnumLower) := le_of_lt (lt_trans (by norm_num) h4)
      exact mul_nonneg (by norm_num) hsim
    · exact le_refl 0

/-- The specs score is nonnegative. -/
theorem scoreSpecs_nonneg (f1 f2 : Features) : 0 ≤ scoreSpecs f1 f2 := by
  have hst : (0 : ℚ) ≤ storagePart f1 f2 := by
    unfold storagePart
    split_ifs
    · norm_num
    · split
      · split_ifs <;> norm_num
      · norm_num
    · norm_num
  have hram : (0 : ℚ) ≤ ramPart f1 f2 := by
    unfold ramPart
    split_ifs
    · norm_num
    · split
      · split_ifs <;> norm_num
      · norm_num
    · norm_num
  have hcol : (0 : ℚ) ≤ colorPart f1 f2 := by
    unfold colorPart
    split_ifs <;> norm_num
  unfold scoreSpecs
  linarith

/-- The title score is nonnegative. -/
theorem scoreTitleSimilarity_nonneg (t1 t2 b1 b2 : List Str) :
    0 ≤ scoreTitleSimilarity t1 t2 b1 b2 := by
  unfold scoreTitleSimilarity WEIGHT_TITLE
  have h1 := calculateTokenOverlap_nonneg t1 t2
  have h2 := calculateTokenOverlap_nonneg b1 b2
  positivity

/-- The category score is nonnegative. -/
theorem scoreCategory_nonneg (c1 c2 : Str) : 0 ≤ scoreCategory c1 c2 := by
  unfold scoreCategory WEIGHT_CATEGORY
  split_ifs <;> norm_num

/-- The price score is at least minus two. -/
theorem scorePriceProximity_ge (p1 p2 : ℚ) : -2 ≤ scorePriceProximity p1 p2 := by
  unfold scorePriceProximity
  split_ifs with h
  · norm_num
  · dsimp only
    split_ifs <;> norm_num

/-- C1 (amended).  The total of a scoring breakdown is the capped sum of the
six sub scores, and lies between minus two and one hundred inclusive.  The
original claim asserted a lower bound of zero, which fails because the price
penalty is not clamped away. -/
theorem calculateScore_total (f1 f2 : Features) (p1 p2 : Product)
    (h1 : 0 ≤ p1.numericPrice) (h2 : 0 ≤ p2.numericPrice) :
    (calculateScore f1 f2 p1 p2).total =
      min 100 ((calculateScore f1 f2 p1 p2).brandScore +
        (calculateScore f1 f2 p1 p2).modelScore +
        (calculateScore f1 f2 p1 p2).specsScore +
        (calculateScore f1 f2 p1 p2).titleScore +
        (calculateScore f1 f2 p1 p2).categoryScore +
        (calculateScore f1 f2 p1 p2).priceScore) ∧
    (-2 : ℚ) ≤ (calculateScore f1 f2 p1 p2).total ∧
    (calculateScore f1 f2 p1 p2).total ≤ 100 := by
  have hbrand := scoreBrand_nonneg f1.brand f2.brand
  have hmodel := scoreModel_nonneg f1.model f2.model f1.tokens f2.tokens
  have hspecs := scoreSpecs_nonneg f1 f2
  have htitle := scoreTitleSimilarity_nonneg f1.tokens f2.tokens f1.bigrams f2.bigrams
  have hcat := scoreCategory_nonneg p1.category p2.category
  have hprice := scorePriceProximity_ge p1.numericPrice p2.numericPrice
  refine ⟨rfl, ?_, ?_⟩
  · show (-2 : ℚ) ≤ min 100 (scoreBrand f1.brand f2.brand +
      scoreModel f1.model f2.model f1.tokens f2.tokens + scoreSpecs f1 f2 +
      scoreTitleSimilarity f1.tokens f2.tokens f1.bigrams f2.bigrams +
      scoreCategory p1.category p2.category +
      scorePriceProximity p1.numericPrice p2.numericPrice)
    apply le_min
    · norm_num
    · linarith
  · exact min_le_left _ _

/-- Closed instance of C1 at concrete feature and product inputs with
nonnegative prices. -/
theorem calculateScore_total_instance :
    (0 : ℚ) ≤ probeProd1.numericPrice ∧ (0 : ℚ) ≤ probeProd2.numericPrice ∧
    ((calculateScore emptyFeatures emptyFeatures probeProd1 probeProd2).total =
      min 100 ((calculateScore emptyFeatures emptyFeatures probeProd1 probeProd2).brandScore +
        (calculateScore emptyFeatures emptyFeatures probeProd1 probeProd2).modelScore +
        (calculateScore emptyFeatures emptyFeatures probeProd1 probeProd2).specsScore +
        (calculateScore emptyFeatures emptyFeatures probeProd1 probeProd2).titleScore +
        (calculateScore emptyFeatures emptyFeatures probeProd1 probeProd2).categoryScore +
        (calculateScore emptyFeatures emptyFeatures probeProd1 probeProd2).priceScore) ∧
      (-2 : ℚ) ≤ (calculateScore emptyFeatures emptyFeatures probeProd1 probeProd2).total ∧
      (calculateScore emptyFeatures emptyFeatures probeProd1 probeProd2).total ≤ 100) :=
  ⟨by decide, by decide,
   calculateScore_total emptyFeatures emptyFeatures probeProd1 probeProd2
     (by decide) (by decide)⟩

/-- Counterexample to C1 as stated: with empty features, unrelated category
strings and prices of one hundred against two hundred and one, every sub
score is zero except the price penalty, and the total is minus two, below
the claimed lower bound of zero. -/
theorem calculateScore_total_negative :
    (0 : ℚ) ≤ probeProd1.numericPrice ∧ (0 : ℚ) ≤ probeProd2.numericPrice ∧
    (calculateScore emptyFeatures emptyFeatures probeProd1 probeProd2).total = -2 ∧
    (calculateScore emptyFeatures emptyFeatures probeProd1 probeProd2).total < 0 := by
  have hb : scoreBrand emptyFeatures.brand emptyFeatures.brand = 0 := rfl
  have hm : scoreModel emptyFeatures.model emptyFeatures.model
      emptyFeatures.tokens emptyFeatures.tokens
      = calculateTokenOverlap [] [] * WEIGHT_MODEL := rfl
  have hov : calculateTokenOverlap ([] : List Str) [] = 0 := rfl
  have hs : scoreSpecs emptyFeatures emptyFeatures = 0 + 0 + 0 := rfl
  have ht : scoreTitleSimilarity emptyFeatures.tokens emptyFeatures.tokens
      emptyFeatures.bigrams emptyFeatures.bigrams
      = (0 * 0.4 + 0 * 0.6) * WEIGHT_TITLE := rfl
  have hc : scoreCategory probeProd1.category probeProd2.category = 0 := rfl
  have hp : scorePriceProximity probeProd1.numericPrice probeProd2.numericPrice
      = -2 := by
    show scorePriceProximity 100 201 = -2
    unfold scorePriceProximity
    rw [if_neg (by norm_num)]
    rw [show max (100 : ℚ) 201 = 201 by norm_num,
      show min (100 : ℚ) 201 = 100 by norm_num]
    rw [if_neg (by norm_num), if_neg (by norm_num), if_pos (by norm_num)]
  refine ⟨by decide, by decide, ?_, ?_⟩
  · show min 100 (scoreBrand emptyFeatures.brand emptyFeatures.brand +
      scoreModel emptyFeatures.model emptyFeatures.model emptyFeatures.tokens
        emptyFeatures.tokens +
      scoreSpecs emptyFeatures emptyFeatures +
      scoreTitleSimilarity emptyFeatures.tokens emptyFeatures.tokens
        emptyFeatures.bigrams emptyFeatures.bigrams +
      scoreCategory probeProd1.category probeProd2.category +
      scorePriceProximity probeProd1.numericPrice probeProd2.numericPrice) = -2
    rw [hb, hm, hov, hs, ht, hc, hp]
    unfold WEIGHT_MODEL WEIGHT_TITLE
    norm_num
  · show min 100 (scoreBrand emptyFeatures.brand emptyFeatures.brand +
      scoreModel emptyFeatures.model emptyFeatures.model emptyFeatures.tokens
        emptyFeatures.tokens +
      scoreSpecs emptyFeatures emptyFeatures +
      scoreTitleSimilarity emptyFeatures.tokens emptyFeatures.tokens
        emptyFeatures.bigrams emptyFeatures.bigrams +
      scoreCategory probeProd1.category probeProd2.category +
      scorePriceProximity probeProd1.numericPrice probeProd2.numericPrice) < 0
    rw [hb, hm, hov, hs, ht, hc, hp]
    unfold WEIGHT_MODEL WEIGHT_TITLE
    norm_num

/-!
Structure of the smart matcher output, claims C2 and C3.
-/

/-- Membership inversion for the smart matcher output: every result wraps a
category filtered candidate whose total cleared the threshold, and its
confidence is the rounded total. -/
theorem smartFindMatches_mem {src : Product} {cands : List Product}
    {m : SmartResult} (h : m ∈ smartFindMatches src cands) :
    m.product ∈ filterByCategory (detectCategory src) (preprocessCandidates cands) ∧
    MIN_CONFIDENCE_SMART ≤ m.scoring.total ∧
    m.confidence = jsRound m.scoring.total := by
  simp only [smartFindMatches] at h
  split at h
  · exact absurd h (List.not_mem_nil m)
  · have h1 : m ∈ (List.filterMap _ _).insertionSort smartLe :=
      List.mem_of_mem_take h
    have h2 := (List.perm_insertionSort smartLe _).mem_iff.mp h1
    obtain ⟨c, hc, heq⟩ := List.mem_filterMap.mp h2
    by_cases hcond : MIN_CONFIDENCE_SMART ≤
        (calculateScore (extractFeatures src) (extractFeatures c) src c).total
    · rw [if_pos hcond] at heq
      injection heq with heq
      subst heq
      exact ⟨hc, hcond, rfl⟩
    · rw [if_neg hcond] at heq
      exact absurd heq (Option.noConfusion)

/-- C2.  The primary matcher never crosses the phone and laptop categories:
a source detected as a phone admits no laptop candidate in the output, and
conversely. -/
theorem smart_matcher_category_invariant (src : Product) (cands : List Product) :
    (detectCategory src = str "phone" →
      ∀ m ∈ smartFindMatches src cands, detectCategory m.product ≠ str "laptop") ∧
    (detectCategory src = str "laptop" →
      ∀ m ∈ smartFindMatches src cands, detectCategory m.product ≠ str "phone") := by
  constructor
  · intro hsrc m hm hlap
    have hmem := (smartFindMatches_mem hm).1
    rw [hsrc] at hmem
    unfold filterByCategory at hmem
    rw [if_neg (show ¬ (str "phone" = str "accessory") by decide)] at hmem
    have hpred := (List.mem_filter.mp hmem).2
    simp only [hlap] at hpred
    exact absurd hpred (by decide)
  · intro hsrc m hm hph
    have hmem := (smartFindMatches_mem hm).1
    rw [hsrc] at hmem
    unfold filterByCategory at hmem
    rw [if_neg (show ¬ (str "laptop" = str "accessory") by decide)] at hmem
    have hpred := (List.mem_filter.mp hmem).2
    simp only [hph] at hpred
    exact absurd hpred (by decide)

/-- Closed instance of C2 at a concrete phone source and laptop candidate. -/
theorem smart_matcher_category_invariant_instance :
    detectCategory srcPhone = str "phone" ∧
    detectCategory candLaptop = str "laptop" ∧
    (∀ m ∈ smartFindMatches srcPhone [candLaptop],
      detectCategory m.product ≠ str "laptop") :=
  ⟨by decide, by decide,
   (smart_matcher_category_invariant srcPhone [candLaptop]).1 (by decide)⟩

/-- C3.  The primary matcher returns at most eight results, ordered by non
increasing confidence, and every result breakdown total is at least the
seventy point threshold, with the confidence the rounded total. -/
theorem smart_matcher_output_shape (src : Product) (cands : List Product) :
    (smartFindMatches src cands).length ≤ 8 ∧
    List.Pairwise (fun a b : SmartResult => b.confidence ≤ a.confidence)
      (smartFindMatches src cands) ∧
    ∀ m ∈ smartFindMatches src cands,
      (70 : ℚ) ≤ m.scoring.total ∧ m.confidence = jsRound m.scoring.total := by
  refine ⟨?_, ?_, ?_⟩
  · simp only [smartFindMatches]
    split
    · simp
    · exact List.length_take_le _ _
  · have hshape : smartFindMatches src cands = [] ∨
        ∃ l : List SmartResult,
          smartFindMatches src cands = (l.insertionSort smartLe).take MAX_RESULTS_SMART := by
      simp only [smartFindMatches]
      split
      · exact Or.inl rfl
      · exact Or.inr ⟨_, rfl⟩
    rcases hshape with hnil | ⟨l, hl⟩
    · rw [hnil]
      exact List.Pairwise.nil
    · rw [hl]
      exact List.Pairwise.sublist (List.take_sublist _ _)
        (List.sorted_insertionSort smartLe l)
  · intro m hm
    have h := smartFindMatches_mem hm
    exact ⟨h.2.1, h.2.2⟩

/-- Closed instance of C3 at a concrete source and candidate list. -/
theorem smart_matcher_output_shape_instance :
    (smartFindMatches srcPhone [candLaptop, srcPhone]).length ≤ 8 ∧
    List.Pairwise (fun a b : SmartResult => b.confidence ≤ a.confidence)
      (smartFindMatches srcPhone [candLaptop, srcPhone]) ∧
    ∀ m ∈ smartFindMatches srcPhone [candLaptop, srcPhone],
      (70 : ℚ) ≤ m.scoring.total ∧ m.confidence = jsRound m.scoring.total :=
  smart_matcher_output_shape srcPhone [candLaptop, srcPhone]

/-!
Legacy matcher structure, claims C4 and C10.
-/

/-- Results of sortAndLimit come from the input list. -/
theorem sortAndLimit_subset {l : List MatchResult} {k : ℕ} {m : MatchResult}
    (h : m ∈ sortAndLimit l k) : m ∈ l := by
  unfold sortAndLimit at h
  have h1 := List.mem_of_mem_take h
  have h2 := (List.perm_insertionSort legacyLe _).mem_iff.mp h1
  exact (List.mem_filter.mp h2).1

/-- Every level two result is an exact or high match. -/
theorem level2_matchLevel {a : Attributes} {cands : List Product}
    {m : MatchResult} (h : m ∈ findBrandModelStorageMatches a cands) :
    m.matchLevel = MatchLevel.EXACT ∨ m.matchLevel = MatchLevel.HIGH := by
  unfold findBrandModelStorageMatches at h
  split at h
  · exact absurd h (List.not_mem_nil m)
  · obtain ⟨c, _, heq⟩ := List.mem_filterMap.mp h
    dsimp only at heq
    split at heq
    · split at heq
      · split at heq
        · injection heq with heq
          subst heq
          exact Or.inl rfl
        · injection heq with heq
          subst heq
          exact Or.inr rfl
      · injection heq with heq
        subst heq
        exact Or.inr rfl
    · exact absurd heq (Option.noConfusion)

/-- Every level three result is a medium match. -/
theorem level3_matchLevel {src : Product} {a : Attributes}
    {cands : List Product} {m : MatchResult}
    (h : m ∈ findBrandModelMatches src a cands) :
    m.matchLevel = MatchLevel.MEDIUM := by
  unfold findBrandModelMatches at h
  split at h
  · exact absurd h (List.not_mem_nil m)
  · obtain ⟨c, _, heq⟩ := List.mem_filterMap.mp h
    dsimp only at heq
    split at heq
    · injection heq with heq
      subst heq
      rfl
    · exact absurd heq (Option.noConfusion)

/-- Every level four result is a low match. -/
theorem level4_matchLevel {src : Product} {a : Attributes}
    {cands : List Product} {m : MatchResult}
    (h : m ∈ findFuzzyMatches src a cands) :
    m.matchLevel = MatchLevel.LOW := by
  unfold findFuzzyMatches at h
  obtain ⟨c, _, heq⟩ := List.mem_filterMap.mp h
  dsimp only at heq
  split at heq
  · split at heq
    · split at heq
      · injection heq with heq
        subst heq
        rfl
      · exact absurd heq (Option.noConfusion)
    · split at heq
      · injection heq with heq
        subst heq
        rfl
      · exact absurd heq (Option.noConfusion)
  · exact absurd heq (Option.noConfusion)

/-- C10.  With an empty source product identifier the legacy matcher never
emits an exact identifier result, even when candidates carry an empty
identifier as well: level one is skipped entirely, and levels two to four
only construct other match levels. -/
theorem legacy_no_exact_id_on_empty (source : Product) (candidates : List Product)
    (h : source.productId = []) :
    ∀ m ∈ legacyFindMatches source candidates,
      m.matchLevel ≠ MatchLevel.EXACT_ID := by
  intro m hm
  simp only [legacyFindMatches] at hm
  split at hm
  · exact absurd hm (List.not_mem_nil m)
  · have hpd : ¬ (source.productId ≠ []) := fun hne => hne h
    rw [if_neg hpd] at hm
    rw [if_neg (show ¬ (source.productId ≠ [] ∧
        0 < (List.length ([] : List MatchResult))) from fun hc => hpd hc.1)] at hm
    split at hm
    · rcases level2_matchLevel (sortAndLimit_subset hm) with h2 | h2 <;>
        rw [h2] <;> intro hfalse <;> exact MatchLevel.noConfusion hfalse
    · have hmem := sortAndLimit_subset hm
      split at hmem
      · rcases List.mem_append.mp hmem with h23 | h4
        · rcases List.mem_append.mp h23 with h2 | h3
          · rcases level2_matchLevel h2 with hl | hl <;>
              rw [hl] <;> intro hfalse <;> exact MatchLevel.noConfusion hfalse
          · rw [level3_matchLevel h3]
            intro hfalse
            exact MatchLevel.noConfusion hfalse
        · rw [level4_matchLevel h4]
          intro hfalse
          exact MatchLevel.noConfusion hfalse
      · rcases List.mem_append.mp hmem with h2 | h3
        · rcases level2_matchLevel h2 with hl | hl <;>
            rw [hl] <;> intro hfalse <;> exact MatchLevel.noConfusion hfalse
        · rw [level3_matchLevel h3]
          intro hfalse
          exact MatchLevel.noConfusion hfalse

/-- Closed instance of C10: source and candidate both carry an empty
identifier, and no exact identifier result appears. -/
theorem legacy_no_exact_id_on_empty_instance :
    srcNoId.productId = [] ∧ candNoId.productId = srcNoId.productId ∧
    (∀ m ∈ legacyFindMatches srcNoId [candNoId],
      m.matchLevel ≠ MatchLevel.EXACT_ID) :=
  ⟨by decide, by decide, legacy_no_exact_id_on_empty srcNoId [candNoId] (by decide)⟩

/-- The sort and cap step is the identity on a list of full confidence
results of length at most twenty. -/
theorem sortAndLimit_all100 (l : List MatchResult)
    (h : ∀ m ∈ l, m.confidence = 100) (hlen : l.length ≤ 20) :
    sortAndLimit l 20 = l := by
  unfold sortAndLimit
  have hfilter : l.filter (fun m => decide (MIN_CONFIDENCE_LEGACY ≤ m.confidence)) = l :=
    List.filter_eq_self.mpr (fun m hm => by rw [h m hm]; decide)
  rw [hfilter]
  have hsorted : List.Pairwise legacyLe l :=
    List.pairwise_of_forall_mem_list (fun a ha b hb =>
      show b.confidence ≤ a.confidence by rw [h a ha, h b hb])
  rw [List.Sorted.insertionSort_eq hsorted]
  exact List.take_of_length_le hlen

/-- C4 (amended).  Under the validity and accessory filters, with a nonempty
source identifier and at most twenty surviving identifier matches, every
candidate sharing the source identifier appears in the legacy output as an
exact identifier result with confidence one hundred, regardless of its other
fields. -/
theorem legacy_exact_id_match (source : Product) (candidates : List Product)
    (c : Product)
    (hpid : source.productId ≠ [])
    (hc : c ∈ legacyFiltered source candidates)
    (heq : c.productId = source.productId)
    (hcount : ((legacyFiltered source candidates).filter
        (fun x => x.productId == source.productId)).length ≤ 20) :
    mkExactIdResult c ∈ legacyFindMatches source candidates ∧
    (mkExactIdResult c).confidence = 100 ∧
    (mkExactIdResult c).matchLevel = MatchLevel.EXACT_ID := by
  refine ⟨?_, rfl, rfl⟩
  have hfl : ¬ (legacyFiltered source candidates).length = 0 := by
    intro h0
    exact List.ne_nil_of_mem hc (List.length_eq_zero.mp h0)
  have hcmem : c ∈ (legacyFiltered source candidates).filter
      (fun x => x.productId == source.productId) :=
    List.mem_filter.mpr ⟨hc, by simp [heq]⟩
  have hmmem : mkExactIdResult c ∈
      findExactIdMatches source (legacyFiltered source candidates) := by
    unfold findExactIdMatches
    exact List.mem_map_of_mem _ hcmem
  have hlenpos : 0 <
      (findExactIdMatches source (legacyFiltered source candidates)).length :=
    List.length_pos.mpr (List.ne_nil_of_mem hmmem)
  have hall100 : ∀ m ∈ findExactIdMatches source (legacyFiltered source candidates),
      m.confidence = 100 := by
    intro m hmem
    unfold findExactIdMatches at hmem
    obtain ⟨x, _, hx⟩ := List.mem_map.mp hmem
    rw [← hx]
    rfl
  have hlen20 : (findExactIdMatches source (legacyFiltered source candidates)).length ≤ 20 := by
    unfold findExactIdMatches
    rw [List.length_map]
    exact hcount
  simp only [legacyFindMatches]
  rw [if_neg hfl, if_pos hpid, if_pos ⟨hpid, hlenpos⟩,
    sortAndLimit_all100 _ hall100 hlen20]
  exact hmmem

/-- Closed instance of the amended C4: a candidate differing from the source
in title, brand, price and category but sharing its identifier appears with
full confidence. -/
theorem legacy_exact_id_match_instance :
    srcWithId.productId ≠ [] ∧
    candSameId ∈ legacyFiltered srcWithId [candSameId] ∧
    candSameId.productId = srcWithId.productId ∧
    ((legacyFiltered srcWithId [candSameId]).filter
        (fun x => x.productId == srcWithId.productId)).length ≤ 20 ∧
    mkExactIdResult candSameId ∈ legacyFindMatches srcWithId [candSameId] :=
  ⟨by decide, by decide, by decide, by decide,
   (legacy_exact_id_match srcWithId [candSameId] candSameId (by decide)
     (by decide) (by decide) (by decide)).1⟩

/-- Counterexample to C4 as stated: a candidate sharing the source
identifier but priced below the validity floor is filtered out before level
one, so it does not appear in the output at all, contradicting regardless of
any price mismatch. -/
theorem legacy_exact_id_counterexample :
    srcWithId.productId ≠ [] ∧
    candCheapId.productId = srcWithId.productId ∧
    legacyFindMatches srcWithId [candCheapId] = [] := by
  refine ⟨by decide, by decide, by decide⟩

/-!
Grouping and minimum lemmas for the deduplicator, claims C5 and C6.
-/

/-- Membership is preserved by the first occurrence list. -/
theorem mem_firstOccs {a : Str} : ∀ {l : List Str}, a ∈ firstOccs l ↔ a ∈ l := by
  intro l
  induction l using firstOccs.induct with
  | case1 => simp [firstOccs]
  | case2 k rest ih =>
    rw [firstOccs]
    constructor
    · intro h
      rcases List.mem_cons.mp h with h1 | h1
      · exact h1 ▸ List.mem_cons_self _ _
      · have := ih.mp h1
        exact List.mem_cons_of_mem _ (List.mem_filter.mp this).1
    · intro h
      rcases List.mem_cons.mp h with h1 | h1
      · exact h1 ▸ List.mem_cons_self _ _
      · by_cases hak : a = k
        · exact hak ▸ List.mem_cons_self _ _
        · apply List.mem_cons_of_mem
          apply ih.mpr
          refine List.mem_filter.mpr ⟨h1, ?_⟩
          simp [hak]

/-- The first occurrence list has pairwise distinct entries. -/
theorem pairwise_firstOccs : ∀ (l : List Str),
    (firstOccs l).Pairwise (fun a b => a ≠ b) := by
  intro l
  induction l using firstOccs.induct with
  | case1 => simp [firstOccs]
  | case2 k rest ih =>
    rw [firstOccs]
    refine List.Pairwise.cons ?_ ih
    intro b hb
    have hbf := mem_firstOccs.mp hb
    have := (List.mem_filter.mp hbf).2
    simp at this
    exact fun hkb => this hkb.symm

/-- On a list with pairwise distinct entries the first occurrence list is
the identity. -/
theorem firstOccs_of_pairwise : ∀ {l : List Str},
    l.Pairwise (fun a b => a ≠ b) → firstOccs l = l := by
  intro l
  induction l using firstOccs.induct with
  | case1 => intro _; simp [firstOccs]
  | case2 k rest ih =>
    intro hp
    rw [firstOccs]
    have hhead := List.pairwise_cons.mp hp
    have hfilter : rest.filter (fun x => !(x == k)) = rest := by
      apply List.filter_eq_self.mpr
      intro b hb
      have : k ≠ b := hhead.1 b hb
      simp
      exact fun h => this h.symm
    rw [hfilter] at ih ⊢
    rw [ih hhead.2]

/-- The reduced minimum is a member of its group. -/
theorem reduceMinPrice_mem : ∀ (t : List MatchResult) (h : MatchResult),
    reduceMinPrice h t ∈ h :: t := by
  intro t
  induction t with
  | nil => intro h; exact List.mem_cons_self _ _
  | cons c rest ih =>
    intro h
    have hstep : reduceMinPrice h (c :: rest) =
        reduceMinPrice (if c.product.numericPrice < h.product.numericPrice
          then c else h) rest := rfl
    rw [hstep]
    have := ih (if c.product.numericPrice < h.product.numericPrice then c else h)
    rcases List.mem_cons.mp this with h1 | h1
    · rw [h1]
      split
      · exact List.mem_cons_of_mem _ (List.mem_cons_self _ _)
      · exact List.mem_cons_self _ _
    · exact List.mem_cons_of_mem _ (List.mem_cons_of_mem _ h1)

/-- The reduced minimum has the least numeric price of its group. -/
theorem reduceMinPrice_le : ∀ (t : List MatchResult) (h : MatchResult),
    ∀ m ∈ h :: t,
      (reduceMinPrice h t).product.numericPrice ≤ m.product.numericPrice := by
  intro t
  induction t with
  | nil =>
    intro h m hm
    rcases List.mem_cons.mp hm with h1 | h1
    · rw [h1]
      exact le_refl _
    · exact absurd h1 (List.not_mem_nil m)
  | cons c rest ih =>
    intro h m hm
    have hstep : reduceMinPrice h (c :: rest) =
        reduceMinPrice (if c.product.numericPrice < h.product.numericPrice
          then c else h) rest := rfl
    rw [hstep]
    have hacc : (if c.product.numericPrice < h.product.numericPrice then c
        else h).product.numericPrice ≤ h.product.numericPrice ∧
        (if c.product.numericPrice < h.product.numericPrice then c
        else h).product.numericPrice ≤ c.product.numericPrice := by
      split
      · rename_i hlt
        exact ⟨le_of_lt hlt, le_refl _⟩
      · rename_i hlt
        exact ⟨le_refl _, le_of_not_lt hlt⟩
    have hle := ih (if c.product.numericPrice < h.product.numericPrice then c else h)
    rcases List.mem_cons.mp hm with h1 | h1
    · rw [h1]
      exact le_trans (hle _ (List.mem_cons_self _ _)) hacc.1
    · rcases List.mem_cons.mp h1 with h2 | h2
      · rw [h2]
        exact le_trans (hle _ (List.mem_cons_self _ _)) hacc.2
      · exact hle m (List.mem_cons_of_mem _ h2)

/-- Inversion for the group minimum. -/
theorem groupMin_spec {g : List MatchResult} {m : MatchResult}
    (h : groupMin g = some m) :
    m ∈ g ∧ ∀ x ∈ g, m.product.numericPrice ≤ x.product.numericPrice := by
  cases g with
  | nil => exact absurd h (Option.noConfusion)
  | cons hd t =>
    have hm : m = reduceMinPrice hd t := by
      injection h with h2
      exact h2.symm
    subst hm
    exact ⟨reduceMinPrice_mem t hd, reduceMinPrice_le t hd⟩

/-- The key of a group minimum over a key filter is that key. -/
theorem groupMin_key {results : List MatchResult} {k : Str} {m : MatchResult}
    (h : groupMin (results.filter (fun m => dedupKey m == k)) = some m) :
    dedupKey m = k := by
  have hmem := (groupMin_spec h).1
  have := (List.mem_filter.mp hmem).2
  simpa using this

/-- C5.  Every element of the deduplicated list is a member of the input
that attains the minimum numeric price within its key group; every input
key group is represented; and distinct output elements carry distinct
keys. -/
theorem dedup_groups_minimum (results : List MatchResult) :
    (∀ m ∈ deduplicateColorVariants results,
      m ∈ results ∧
      ∀ m2 ∈ results, dedupKey m2 = dedupKey m →
        m.product.numericPrice ≤ m2.product.numericPrice) ∧
    (∀ x ∈ results, ∃ m ∈ deduplicateColorVariants results,
      dedupKey m = dedupKey x) ∧
    (deduplicateColorVariants results).Pairwise
      (fun a b => dedupKey a ≠ dedupKey b) := by
  refine ⟨?_, ?_, ?_⟩
  · intro m hm
    obtain ⟨k, hk, hsome⟩ := List.mem_filterMap.mp hm
    have hspec := groupMin_spec hsome
    have hmem := (List.mem_filter.mp hspec.1).1
    have hkey := groupMin_key hsome
    refine ⟨hmem, ?_⟩
    intro m2 hm2 hkey2
    have hm2f : m2 ∈ results.filter (fun m => dedupKey m == k) := by
      refine List.mem_filter.mpr ⟨hm2, ?_⟩
      rw [hkey2, hkey]
      simp
    exact hspec.2 m2 hm2f
  · intro x hx
    have hkmem : dedupKey x ∈ firstOccs (results.map dedupKey) :=
      mem_firstOccs.mpr (List.mem_map_of_mem dedupKey hx)
    have hxf : x ∈ results.filter (fun m => dedupKey m == dedupKey x) :=
      List.mem_filter.mpr ⟨hx, by simp⟩
    have hne : results.filter (fun m => dedupKey m == dedupKey x) ≠ [] :=
      List.ne_nil_of_mem hxf
    obtain ⟨hd, t, hg⟩ := List.exists_cons_of_ne_nil hne
    have hsome : groupMin (results.filter (fun m => dedupKey m == dedupKey x))
        = some (reduceMinPrice hd t) := by
      rw [hg]
      rfl
    refine ⟨reduceMinPrice hd t |> fun m0 => m0, ?_, ?_⟩
    · exact List.mem_filterMap.mpr ⟨dedupKey x, hkmem, hsome⟩
    · exact groupMin_key hsome
  · have hpw := pairwise_firstOccs (results.map dedupKey)
    unfold deduplicateColorVariants
    generalize hks : firstOccs (results.map dedupKey) = ks at hpw
    clear hks
    induction ks with
    | nil => exact List.Pairwise.nil
    | cons k ks ih =>
      rw [List.filterMap_cons]
      have hp := List.pairwise_cons.mp hpw
      cases hsome : groupMin (results.filter (fun m => dedupKey m == k)) with
      | none => exact ih hp.2
      | some m =>
        refine List.Pairwise.cons ?_ (ih hp.2)
        intro b hb
        obtain ⟨k2, hk2, hsome2⟩ := List.mem_filterMap.mp hb
        rw [groupMin_key hsome, groupMin_key hsome2]
        exact hp.1 k2 hk2

/-- Closed instance of C5 on two colour variants of one product from one
site. -/
theorem dedup_groups_minimum_instance :
    (∀ m ∈ deduplicateColorVariants [variantBlack, variantWhite],
      m ∈ [variantBlack, variantWhite] ∧
      ∀ m2 ∈ [variantBlack, variantWhite], dedupKey m2 = dedupKey m →
        m.product.numericPrice ≤ m2.product.numericPrice) ∧
    (∀ x ∈ [variantBlack, variantWhite],
      ∃ m ∈ deduplicateColorVariants [variantBlack, variantWhite],
        dedupKey m = dedupKey x) ∧
    (deduplicateColorVariants [variantBlack, variantWhite]).Pairwise
      (fun a b => dedupKey a ≠ dedupKey b) :=
  dedup_groups_minimum [variantBlack, variantWhite]

/-- Keys of a filter map whose function returns elements carrying the
queried key. -/
theorem map_key_filterMap (ks : List Str) (f : Str → Option MatchResult)
    (h : ∀ k ∈ ks, ∃ m, f k = some m ∧ dedupKey m = k) :
    (ks.filterMap f).map dedupKey = ks := by
  induction ks with
  | nil => rfl
  | cons k ks ih =>
    obtain ⟨m, hm, hk⟩ := h k (List.mem_cons_self _ _)
    rw [List.filterMap_cons, hm, List.map_cons, hk,
      ih (fun k2 hk2 => h k2 (List.mem_cons_of_mem _ hk2))]

/-- The key list of the deduplicated output is the first occurrence list of
the input keys. -/
theorem dedup_keys (X : List MatchResult) :
    (deduplicateColorVariants X).map dedupKey = firstOccs (X.map dedupKey) := by
  unfold deduplicateColorVariants
  apply map_key_filterMap
  intro k hk
  obtain ⟨x, hx, hkx⟩ := List.mem_map.mp (mem_firstOccs.mp hk)
  have hxf : x ∈ X.filter (fun m => dedupKey m == k) :=
    List.mem_filter.mpr ⟨hx, by simp [hkx]⟩
  obtain ⟨hd, t, hg⟩ := List.exists_cons_of_ne_nil (List.ne_nil_of_mem hxf)
  have hsome : groupMin (X.filter (fun m => dedupKey m == k))
      = some (reduceMinPrice hd t) := by
    rw [hg]
    rfl
  exact ⟨reduceMinPrice hd t, hsome, groupMin_key hsome⟩

/-- Filter map of a list over its own pairwise distinct key list, with an
irrelevant prefix whose keys do not occur, is the identity. -/
theorem filterMap_own_keys : ∀ (D : List MatchResult),
    (D.map dedupKey).Pairwise (fun a b => a ≠ b) →
    ∀ (E : List MatchResult), (∀ e ∈ E, dedupKey e ∉ D.map dedupKey) →
    (D.map dedupKey).filterMap
        (fun k => groupMin ((E ++ D).filter (fun m => dedupKey m == k))) = D := by
  intro D
  induction D with
  | nil => intro _ E _; rfl
  | cons d D ih =>
    intro hpw E hE
    have hp := List.pairwise_cons.mp (by rw [List.map_cons] at hpw; exact hpw)
    have hfE : E.filter (fun m => dedupKey m == dedupKey d) = [] := by
      rw [List.filter_eq_nil_iff]
      intro e he
      have hnot := hE e he
      simp only [List.map_cons, List.mem_cons] at hnot
      simp only [beq_iff_eq]
      exact fun hcontra => hnot (Or.inl hcontra)
    have hfD : D.filter (fun m => dedupKey m == dedupKey d) = [] := by
      rw [List.filter_eq_nil_iff]
      intro b hb
      have := hp.1 (dedupKey b) (List.mem_map_of_mem dedupKey hb)
      simp only [beq_iff_eq]
      exact fun hcontra => this hcontra.symm
    have hfilter : (E ++ d :: D).filter (fun m => dedupKey m == dedupKey d)
        = [d] := by
      rw [List.filter_append, hfE, List.nil_append,
        List.filter_cons_of_pos (by simp), hfD]
    rw [List.map_cons, List.filterMap_cons, hfilter]
    have hgm : groupMin [d] = some d := rfl
    rw [hgm]
    have hassoc : E ++ d :: D = (E ++ [d]) ++ D := by simp
    rw [hassoc]
    rw [ih hp.2 (E ++ [d]) ?hE2]
    case hE2 =>
      intro e he
      rcases List.mem_append.mp he with h1 | h1
      · have hnot := hE e h1
        simp only [List.map_cons, List.mem_cons] at hnot
        intro hcontra
        exact hnot (Or.inr hcontra)
      · have hed : e = d := by simpa using h1
        subst hed
        intro hcontra
        obtain ⟨b, hb, hkb⟩ := List.mem_map.mp hcontra
        exact hp.1 (dedupKey b) (List.mem_map_of_mem dedupKey hb) hkb.symm

/-- C6.  The colour variant deduplicator is idempotent: applying it twice
returns exactly the list obtained by applying it once. -/
theorem dedup_idempotent (X : List MatchResult) :
    deduplicateColorVariants (deduplicateColorVariants X)
      = deduplicateColorVariants X := by
  have hnodup : ((deduplicateColorVariants X).map dedupKey).Pairwise
      (fun a b => a ≠ b) := by
    rw [dedup_keys X]
    exact pairwise_firstOccs _
  show (firstOccs ((deduplicateColorVariants X).map dedupKey)).filterMap
      (fun k => groupMin ((deduplicateColorVariants X).filter
        (fun m => dedupKey m == k)))
    = deduplicateColorVariants X
  rw [firstOccs_of_pairwise hnodup]
  exact filterMap_own_keys (deduplicateColorVariants X) hnodup []
    (fun e he => absurd he (List.not_mem_nil e))

/-- Closed instance of the amended C9 on a concrete nonempty pair. -/
theorem stringSimilarity_formula_instance :
    ((str "ab" : Str) ≠ [] ∨ (str "b" : Str) ≠ []) ∧
    (stringSimilarity (str "ab") (str "b") =
      (((max (str "ab").length (str "b").length : ℕ) : ℚ) -
        (levenshteinDistance (str "ab") (str "b") : ℚ)) /
        ((max (str "ab").length (str "b").length : ℕ) : ℚ) ∧
    (str "ab" = str "b" → stringSimilarity (str "ab") (str "b") = 1) ∧
    ((str "ab" = ([] : Str) ∨ str "b" = ([] : Str)) →
      stringSimilarity (str "ab") (str "b") = 0)) :=
  ⟨Or.inl (by decide), stringSimilarity_formula (str "ab") (str "b") (Or.inl (by decide))⟩
